import Mathlib

/-!
# Verification of socketry/memory-profiler event queueing core

Shallow embedding of the C sources `ext/memory/profiler/queue.h` and
`ext/memory/profiler/events.c`.

Modelling conventions:
* `size_t` is modelled as `Nat` together with the explicit constant
  `SIZE_MAX = 2^64 - 1`; the C code guards every multiplication before
  performing it, so the `Nat` arithmetic agrees with the machine
  arithmetic on all paths the code actually takes.
* Raw queue storage (`void *base`) is modelled as a total function
  `Nat → α` from slot index to stored element; `realloc` preserves the
  contents of the live slots, which the function model captures by
  leaving `base` unchanged on resize.  Whether an allocation of a given
  byte size succeeds is an environment choice, passed in as an oracle
  `alloc : Nat → Bool`.
* Ruby `VALUE`s are opaque references with a distinguished `Qnil`.
* A call that C makes through a function pointer to the outside world
  (marking, dispatching to `Memory_Profiler_Capture_process_event`)
  is modelled as a trace: the list of arguments of the calls that the
  code performs, in order.
-/

/-- `SIZE_MAX` on an LP64 platform. -/
def SIZE_MAX : Nat := 2 ^ 64 - 1

/-- A Ruby `VALUE`: either `Qnil` or a reference to some object. -/
inductive Value where
  | Qnil : Value
  | obj : Nat → Value
deriving DecidableEq, Repr

instance : Inhabited Value := ⟨Value.Qnil⟩

/-- `enum Memory_Profiler_Event_Type`.  `events.h` declares `NEWOBJ` and
`FREEOBJ`; `events.c` additionally uses the sentinel value
`MEMORY_PROFILER_EVENT_TYPE_NONE` to mark an already-drained slot
(the spec's `None(sentinel)` kind). -/
inductive Event_Type where
  | NEWOBJ : Event_Type
  | FREEOBJ : Event_Type
  | NONE : Event_Type
deriving DecidableEq, Repr

/-- `struct Memory_Profiler_Event` as used by `events.c`: the event kind
plus the three `VALUE` references that `events.c` reads and writes
(`capture`, `klass`, `object`). -/
structure Event where
  type : Event_Type
  capture : Value
  klass : Value
  object : Value
deriving DecidableEq, Repr

instance : Inhabited Event := ⟨⟨Event_Type.NONE, default, default, default⟩⟩

/-- `sizeof(struct Memory_Profiler_Event)` on LP64: a padded enum plus
`VALUE` fields.  Only positivity matters for the proofs. -/
def Event_size : Nat := 40

/-- `MEMORY_PROFILER_QUEUE_DEFAULT_COUNT`. -/
def MEMORY_PROFILER_QUEUE_DEFAULT_COUNT : Nat := 128

/-- `struct Memory_Profiler_Queue`.  `base` is the backing storage as a
function from slot index to contents; `capacity`, `count` and
`element_size` are the bookkeeping fields of the C struct. -/
structure Memory_Profiler_Queue (α : Type) where
  base : Nat → α
  capacity : Nat
  count : Nat
  element_size : Nat

/-- `Memory_Profiler_Queue_initialize` (renamed `_make` here): a
zero-capacity, zero-count store.
Freshly (un)allocated memory holds arbitrary junk; the model uses the
default element. -/
def Memory_Profiler_Queue_make (α : Type) [Inhabited α]
    (element_size : Nat) : Memory_Profiler_Queue α :=
  { base := fun _ => default
    capacity := 0
    count := 0
    element_size := element_size }

/-- `Memory_Profiler_Queue_free`: releases the backing storage and
resets `capacity` and `count` to 0.  Freed memory is junk again. -/
def Memory_Profiler_Queue_free {α : Type} [Inhabited α]
    (queue : Memory_Profiler_Queue α) : Memory_Profiler_Queue α :=
  { queue with base := fun _ => default, capacity := 0, count := 0 }

/-- The doubling loop of `Memory_Profiler_Queue_resize`:
`while (new_capacity < required_capacity) { if (new_capacity > SIZE_MAX / (2 * element_size)) return -1; new_capacity *= 2; }`.
Returns `none` when the overflow guard fires.  The C loop would not
terminate if entered with `new_capacity == 0`, but `resize` always
starts it from `128` or from the current non-zero capacity; the model
makes that unreachable branch return `none`. -/
def Memory_Profiler_Queue_resize_loop (element_size : Nat) :
    Nat → Nat → Option Nat
  | new_capacity, required_capacity =>
    if h : new_capacity < required_capacity then
      if SIZE_MAX / (2 * element_size) < new_capacity then
        none
      else if h0 : new_capacity = 0 then
        none
      else
        Memory_Profiler_Queue_resize_loop element_size
          (new_capacity * 2) required_capacity
    else
      some new_capacity
termination_by new_capacity required_capacity => required_capacity - new_capacity
decreasing_by
  omega

/-- `Memory_Profiler_Queue_resize`.  Returns the C `int` result
(`0` = already big enough, `1` = grown, `-1` = failure) together with
the resulting queue; `alloc n` tells whether `realloc` of `n` bytes
succeeds (a failed `realloc` leaves the original block intact). -/
def Memory_Profiler_Queue_resize {α : Type} (alloc : Nat → Bool)
    (queue : Memory_Profiler_Queue α) (required_capacity : Nat) :
    Int × Memory_Profiler_Queue α :=
  if required_capacity ≤ queue.capacity then
    -- Already big enough:
    (0, queue)
  else
    let start := if queue.capacity = 0 then
      MEMORY_PROFILER_QUEUE_DEFAULT_COUNT else queue.capacity
    match Memory_Profiler_Queue_resize_loop queue.element_size
        start required_capacity with
    | none => (-1, queue)  -- Would overflow
    | some new_capacity =>
      if SIZE_MAX / queue.element_size < new_capacity then
        (-1, queue)  -- Too large
      else if alloc (new_capacity * queue.element_size) then
        (1, { queue with capacity := new_capacity })  -- Success
      else
        (-1, queue)  -- Allocation failed

/-- `Memory_Profiler_Queue_push`.  Returns the index of the reserved
tail slot (the C function returns a pointer to it; `none` models the
`NULL` return) together with the updated queue. -/
def Memory_Profiler_Queue_push {α : Type} (alloc : Nat → Bool)
    (queue : Memory_Profiler_Queue α) :
    Option Nat × Memory_Profiler_Queue α :=
  let new_count := queue.count + 1
  if queue.capacity < new_count then
    let r := Memory_Profiler_Queue_resize alloc queue new_count
    if r.1 = -1 then
      (none, r.2)
    else
      (some r.2.count, { r.2 with count := r.2.count + 1 })
  else
    (some queue.count, { queue with count := queue.count + 1 })

/-- `Memory_Profiler_Queue_clear`: reset `count` to 0, keep storage. -/
def Memory_Profiler_Queue_clear {α : Type}
    (queue : Memory_Profiler_Queue α) : Memory_Profiler_Queue α :=
  { queue with count := 0 }

/-- `Memory_Profiler_Queue_at`: element at `index` (callers respect the
`assert(index < count)` precondition, which theorems carry as a
hypothesis). -/
def Memory_Profiler_Queue_at {α : Type}
    (queue : Memory_Profiler_Queue α) (index : Nat) : α :=
  queue.base index

/-- Writing through a pointer obtained from `push`/`at`: store `x` into
slot `index`. -/
def Memory_Profiler_Queue_set {α : Type}
    (queue : Memory_Profiler_Queue α) (index : Nat) (x : α) :
    Memory_Profiler_Queue α :=
  { queue with base := fun j => if j = index then x else queue.base j }

/-- The logical contents of a queue: the elements of slots
`0, …, count-1`, in order. -/
def Memory_Profiler_Queue_records {α : Type}
    (queue : Memory_Profiler_Queue α) : List α :=
  (List.range queue.count).map queue.base

/-! ## `events.c`: the double-buffered event store -/

/-- `struct Memory_Profiler_Events`: two queues, the `available` /
`processing` designations (the C pointers into `queues[2]`, modelled as
a `Bool` index), and the re-entrancy guard.  The postponed-job handle
is process-global plumbing; a trigger request is reported in the
enqueue result instead. -/
structure Memory_Profiler_Events where
  queues : Bool → Memory_Profiler_Queue Event
  available : Bool
  processing : Bool
  processing_flag : Bool

/-- Store a new value for one of the two queues. -/
def Memory_Profiler_Events_update_queue (events : Memory_Profiler_Events)
    (which : Bool) (queue : Memory_Profiler_Queue Event) :
    Memory_Profiler_Events :=
  { events with queues := fun j => if j = which then queue else events.queues j }

/-- `Memory_Profiler_Events_new`: both queues initialized empty,
`queues[0]` available, `queues[1]` processing, guard unset. -/
def Memory_Profiler_Events_new : Memory_Profiler_Events :=
  { queues := fun _ => Memory_Profiler_Queue_make Event Event_size
    available := false
    processing := true
    processing_flag := false }

/-- Result of `Memory_Profiler_Events_enqueue`: the C `int` return
(`ok`), the updated store, whether `rb_postponed_job_trigger` was
called, and the values stored through `RB_OBJ_WRITE` (the write-barrier
log). -/
structure EnqueueResult where
  ok : Bool
  state : Memory_Profiler_Events
  triggered : Bool
  barriered : List Value

/-- `Memory_Profiler_Events_enqueue`: push a slot onto the available
queue; on success fill it (`type` by plain store, the three `VALUE`s
through `RB_OBJ_WRITE`) and trigger the postponed job; on failure the
event is dropped. -/
def Memory_Profiler_Events_enqueue (alloc : Nat → Bool)
    (events : Memory_Profiler_Events) (type : Event_Type)
    (capture klass object : Value) : EnqueueResult :=
  match Memory_Profiler_Queue_push alloc (events.queues events.available) with
  | (some i, queue') =>
    let event : Event := ⟨type, capture, klass, object⟩
    let queue'' := Memory_Profiler_Queue_set queue' i event
    { ok := true
      state := Memory_Profiler_Events_update_queue events events.available queue''
      triggered := true
      barriered := [capture, klass, object] }
  | (none, queue') =>
    { ok := false
      state := Memory_Profiler_Events_update_queue events events.available queue'
      triggered := false
      barriered := [] }

/-- `Memory_Profiler_Events_mark_queue`: the sequence of
`rb_gc_mark_movable` calls made by the loop — `capture` and `klass`
for every slot below `count` (skipping `NONE` slots when requested),
plus `object` for `NEWOBJ` slots. -/
def Memory_Profiler_Events_mark_queue (queue : Memory_Profiler_Queue Event)
    (skip_if_no_type : Bool) : List Value :=
  (List.range queue.count).flatMap fun i =>
    let event := Memory_Profiler_Queue_at queue i
    if skip_if_no_type = true ∧ event.type = Event_Type.NONE then
      []
    else
      [event.capture, event.klass] ++
        (if event.type = Event_Type.NEWOBJ then [event.object] else [])

/-- `Memory_Profiler_Events_mark`: mark the available queue without
skipping, then the processing queue skipping `NONE` slots. -/
def Memory_Profiler_Events_mark (events : Memory_Profiler_Events) : List Value :=
  Memory_Profiler_Events_mark_queue (events.queues events.available) false ++
    Memory_Profiler_Events_mark_queue (events.queues events.processing) true

/-- `Memory_Profiler_Events_compact_queue`: rewrite each reference the
walk visits to its new location (`rb_gc_location`, the oracle `loc`),
with exactly the same skip logic as the mark walk. -/
def Memory_Profiler_Events_compact_queue (loc : Value → Value)
    (queue : Memory_Profiler_Queue Event) (skip_if_no_type : Bool) :
    Memory_Profiler_Queue Event :=
  { queue with base := fun i =>
      let event := queue.base i
      if i < queue.count then
        if skip_if_no_type = true ∧ event.type = Event_Type.NONE then
          event
        else
          { event with
            capture := loc event.capture
            klass := loc event.klass
            object := if event.type = Event_Type.NEWOBJ then
              loc event.object else event.object }
      else
        event }

/-- `Memory_Profiler_Events_compact`: update the available queue
without skipping, then the processing queue skipping `NONE` slots. -/
def Memory_Profiler_Events_compact (loc : Value → Value)
    (events : Memory_Profiler_Events) : Memory_Profiler_Events :=
  let events1 := Memory_Profiler_Events_update_queue events events.available
    (Memory_Profiler_Events_compact_queue loc (events.queues events.available) false)
  Memory_Profiler_Events_update_queue events1 events1.processing
    (Memory_Profiler_Events_compact_queue loc
      (events1.queues events1.processing) true)

/-- The processing loop of `Memory_Profiler_Events_process_queue`,
starting at slot `i`: dispatch the slot's event under `rb_protect`
(`fault i` tells whether `Memory_Profiler_Capture_process_event`
raised; the exception is warned about and suppressed either way), then
clear the slot (`type := NONE`, the three references to `Qnil`) and
continue.  Returns the queue after the loop together with the dispatch
trace (event passed to the handler, whether the handler faulted). -/
def Memory_Profiler_Events_process_loop (fault : Nat → Bool)
    (queue : Memory_Profiler_Queue Event) (i : Nat) :
    Memory_Profiler_Queue Event × List (Event × Bool) :=
  if h : i < queue.count then
    let event := Memory_Profiler_Queue_at queue i
    let faulted := fault i
    let queue' := Memory_Profiler_Queue_set queue i
      ⟨Event_Type.NONE, Value.Qnil, Value.Qnil, Value.Qnil⟩
    let rest := Memory_Profiler_Events_process_loop fault queue' (i + 1)
    (rest.1, (event, faulted) :: rest.2)
  else
    (queue, [])
termination_by queue.count - i
decreasing_by
  simp only [Memory_Profiler_Queue_set]
  omega

/-- `Memory_Profiler_Events_process_queue`: the drain.  If the guard is
set, return immediately (re-entrancy via the postponed job is a
no-op).  Otherwise set the guard, swap the queues, dispatch every
record of the now-processing queue in order, clear it, and release the
guard.  Returns the new store and the dispatch trace. -/
def Memory_Profiler_Events_process_queue (fault : Nat → Bool)
    (events : Memory_Profiler_Events) :
    Memory_Profiler_Events × List (Event × Bool) :=
  if events.processing_flag then
    (events, [])
  else
    let events1 := { events with
      processing_flag := true
      available := events.processing
      processing := events.available }
    let result := Memory_Profiler_Events_process_loop fault
      (events1.queues events1.processing) 0
    let events2 := Memory_Profiler_Events_update_queue events1
      events1.processing (Memory_Profiler_Queue_clear result.1)
    ({ events2 with processing_flag := false }, result.2)

/-- `Memory_Profiler_Events_process_all` (the explicit flush): raises
`RuntimeError` when already draining, otherwise drains synchronously. -/
def Memory_Profiler_Events_process_all (fault : Nat → Bool)
    (events : Memory_Profiler_Events) :
    Except String (Memory_Profiler_Events × List (Event × Bool)) :=
  if events.processing_flag then
    Except.error "Recursive call detected!"
  else
    Except.ok (Memory_Profiler_Events_process_queue fault events)

/-- One externally observable operation on the event store: an enqueue
call (with its allocation environment) or a drain trigger firing (with
its handler-fault environment). -/
inductive EventsOp where
  | enqueue (alloc : Nat → Bool) (type : Event_Type)
      (capture klass object : Value) : EventsOp
  | drain (fault : Nat → Bool) : EventsOp

/-- Step the store by one operation; also report the successfully
enqueued records and the dispatch trace of this step. -/
def Memory_Profiler_Events_step (events : Memory_Profiler_Events) :
    EventsOp → Memory_Profiler_Events × List Event × List (Event × Bool)
  | EventsOp.enqueue alloc type capture klass object =>
    let r := Memory_Profiler_Events_enqueue alloc events type capture klass object
    (r.state, if r.ok then [⟨type, capture, klass, object⟩] else [], [])
  | EventsOp.drain fault =>
    let r := Memory_Profiler_Events_process_queue fault events
    (r.1, [], r.2)

/-- Run a sequence of operations, accumulating the successfully
enqueued records and the dispatch trace in order. -/
def Memory_Profiler_Events_run (events : Memory_Profiler_Events) :
    List EventsOp → Memory_Profiler_Events × List Event × List (Event × Bool)
  | [] => (events, [], [])
  | op :: ops =>
    let r1 := Memory_Profiler_Events_step events op
    let r2 := Memory_Profiler_Events_run r1.1 ops
    (r2.1, r1.2.1 ++ r2.2.1, r1.2.2 ++ r2.2.2)

/-! ## Lemmas about the queue -/

theorem resize_loop_some_aux (element_size : Nat) :
    ∀ d nc rc v, rc - nc ≤ d →
      Memory_Profiler_Queue_resize_loop element_size nc rc = some v →
      rc ≤ v ∧ ∃ k, v = nc * 2 ^ k := by
  intro d
  induction d with
  | zero =>
    intro nc rc v hd h
    unfold Memory_Profiler_Queue_resize_loop at h
    rw [dif_neg (by omega)] at h
    obtain rfl : nc = v := Option.some.inj h
    exact ⟨by omega, 0, by ring⟩
  | succ d ih =>
    intro nc rc v hd h
    unfold Memory_Profiler_Queue_resize_loop at h
    by_cases hlt : nc < rc
    · rw [dif_pos hlt] at h
      by_cases hguard : SIZE_MAX / (2 * element_size) < nc
      · rw [if_pos hguard] at h; exact absurd h (by simp)
      · rw [if_neg hguard] at h
        by_cases h0 : nc = 0
        · rw [dif_pos h0] at h; exact absurd h (by simp)
        · rw [dif_neg h0] at h
          obtain ⟨hle, k, hk⟩ := ih (nc * 2) rc v (by omega) h
          exact ⟨hle, k + 1, by rw [hk]; ring⟩
    · rw [dif_neg hlt] at h
      obtain rfl : nc = v := Option.some.inj h
      exact ⟨by omega, 0, by ring⟩

/-- Every value the doubling loop returns dominates the request and is
the start capacity times a power of two. -/
theorem resize_loop_some (element_size nc rc v : Nat)
    (h : Memory_Profiler_Queue_resize_loop element_size nc rc = some v) :
    rc ≤ v ∧ ∃ k, v = nc * 2 ^ k :=
  resize_loop_some_aux element_size (rc - nc) nc rc v le_rfl h

theorem resize_loop_lt_aux (element_size : Nat) :
    ∀ d nc rc v, rc - nc ≤ d → nc < rc →
      Memory_Profiler_Queue_resize_loop element_size nc rc = some v →
      v < 2 * rc := by
  intro d
  induction d with
  | zero => intro nc rc v hd hlt _; omega
  | succ d ih =>
    intro nc rc v hd hlt h
    unfold Memory_Profiler_Queue_resize_loop at h
    rw [dif_pos hlt] at h
    by_cases hguard : SIZE_MAX / (2 * element_size) < nc
    · rw [if_pos hguard] at h; exact absurd h (by simp)
    · rw [if_neg hguard] at h
      by_cases h0 : nc = 0
      · rw [dif_pos h0] at h; exact absurd h (by simp)
      · rw [dif_neg h0] at h
        by_cases hlt2 : nc * 2 < rc
        · exact ih (nc * 2) rc v (by omega) hlt2 h
        · unfold Memory_Profiler_Queue_resize_loop at h
          rw [dif_neg hlt2] at h
          obtain rfl : nc * 2 = v := Option.some.inj h
          omega

/-- When the loop actually has to grow, the result is less than twice
the request (the last doubling starts below the request). -/
theorem resize_loop_lt (element_size nc rc v : Nat) (hlt : nc < rc)
    (h : Memory_Profiler_Queue_resize_loop element_size nc rc = some v) :
    v < 2 * rc :=
  resize_loop_lt_aux element_size (rc - nc) nc rc v le_rfl hlt h

theorem resize_loop_total_aux (element_size : Nat) :
    ∀ d nc rc, rc - nc ≤ d → 1 ≤ nc → rc ≤ SIZE_MAX / (2 * element_size) →
      ∃ v, Memory_Profiler_Queue_resize_loop element_size nc rc = some v := by
  intro d
  induction d with
  | zero =>
    intro nc rc hd h1 hrc
    refine ⟨nc, ?_⟩
    unfold Memory_Profiler_Queue_resize_loop
    rw [dif_neg (by omega)]
  | succ d ih =>
    intro nc rc hd h1 hrc
    by_cases hlt : nc < rc
    · obtain ⟨v, hv⟩ := ih (nc * 2) rc (by omega) (by omega) hrc
      refine ⟨v, ?_⟩
      unfold Memory_Profiler_Queue_resize_loop
      rw [dif_pos hlt, if_neg (by omega), dif_neg (by omega)]
      exact hv
    · refine ⟨nc, ?_⟩
      unfold Memory_Profiler_Queue_resize_loop
      rw [dif_neg hlt]

/-- The overflow guard never fires while the request itself is within
the guarded bound. -/
theorem resize_loop_total (element_size nc rc : Nat) (h1 : 1 ≤ nc)
    (hrc : rc ≤ SIZE_MAX / (2 * element_size)) :
    ∃ v, Memory_Profiler_Queue_resize_loop element_size nc rc = some v :=
  resize_loop_total_aux element_size (rc - nc) nc rc le_rfl h1 hrc

/-- Case analysis on `Memory_Profiler_Queue_resize`: either the queue
was already big enough (result `0`), or it failed (result `-1`, queue
untouched), or it grew (result `1`): only `capacity` changes, to a
value that covers the request, is a power-of-two multiple of the start
capacity, and passes the final size guard. -/
theorem Queue_resize_spec {α : Type} (alloc : Nat → Bool)
    (q : Memory_Profiler_Queue α) (rc : Nat) :
    (rc ≤ q.capacity ∧ Memory_Profiler_Queue_resize alloc q rc = (0, q)) ∨
    ((Memory_Profiler_Queue_resize alloc q rc).1 = -1 ∧
      (Memory_Profiler_Queue_resize alloc q rc).2 = q) ∨
    (∃ v k, Memory_Profiler_Queue_resize alloc q rc = (1, { q with capacity := v }) ∧
      rc ≤ v ∧
      v = (if q.capacity = 0 then MEMORY_PROFILER_QUEUE_DEFAULT_COUNT
        else q.capacity) * 2 ^ k ∧
      v ≤ SIZE_MAX / q.element_size ∧
      alloc (v * q.element_size) = true) := by
  by_cases hcap : rc ≤ q.capacity
  · exact Or.inl ⟨hcap, by simp [Memory_Profiler_Queue_resize, hcap]⟩
  · have hres : Memory_Profiler_Queue_resize alloc q rc =
      (match Memory_Profiler_Queue_resize_loop q.element_size
          (if q.capacity = 0 then MEMORY_PROFILER_QUEUE_DEFAULT_COUNT
            else q.capacity) rc with
      | none => (-1, q)
      | some v =>
        if SIZE_MAX / q.element_size < v then (-1, q)
        else if alloc (v * q.element_size) then (1, { q with capacity := v })
        else (-1, q)) := by
      simp only [Memory_Profiler_Queue_resize, if_neg hcap]
    cases hloop : Memory_Profiler_Queue_resize_loop q.element_size
        (if q.capacity = 0 then MEMORY_PROFILER_QUEUE_DEFAULT_COUNT
          else q.capacity) rc with
    | none =>
      rw [hloop] at hres
      exact Or.inr (Or.inl (by rw [hres]; exact ⟨rfl, rfl⟩))
    | some v =>
      rw [hloop] at hres
      dsimp only at hres
      obtain ⟨hle, k, hk⟩ := resize_loop_some _ _ _ _ hloop
      by_cases hguard : SIZE_MAX / q.element_size < v
      · rw [if_pos hguard] at hres
        exact Or.inr (Or.inl (by rw [hres]; exact ⟨rfl, rfl⟩))
      · rw [if_neg hguard] at hres
        by_cases halloc : alloc (v * q.element_size)
        · rw [if_pos halloc] at hres
          exact Or.inr (Or.inr ⟨v, k, hres, hle, hk, by omega, halloc⟩)
        · rw [if_neg halloc] at hres
          exact Or.inr (Or.inl (by rw [hres]; exact ⟨rfl, rfl⟩))

/-- Resizing never touches `count`, the stored elements, or
`element_size`. -/
theorem Queue_resize_preserves {α : Type} (alloc : Nat → Bool)
    (q : Memory_Profiler_Queue α) (rc : Nat) :
    (Memory_Profiler_Queue_resize alloc q rc).2.count = q.count ∧
    (Memory_Profiler_Queue_resize alloc q rc).2.base = q.base ∧
    (Memory_Profiler_Queue_resize alloc q rc).2.element_size = q.element_size := by
  rcases Queue_resize_spec alloc q rc with ⟨_, h⟩ | ⟨_, h⟩ | ⟨v, k, h, _⟩
  · rw [h]; exact ⟨rfl, rfl, rfl⟩
  · rw [h]; exact ⟨rfl, rfl, rfl⟩
  · rw [h]; exact ⟨rfl, rfl, rfl⟩

/-- Resizing never shrinks the capacity. -/
theorem Queue_resize_capacity_le {α : Type} (alloc : Nat → Bool)
    (q : Memory_Profiler_Queue α) (rc : Nat) :
    q.capacity ≤ (Memory_Profiler_Queue_resize alloc q rc).2.capacity := by
  rcases Queue_resize_spec alloc q rc with ⟨_, h⟩ | ⟨_, h⟩ | ⟨v, k, h, _, hk, _⟩
  · rw [h]
  · rw [h]
  · rw [h]
    show q.capacity ≤ v
    rw [hk]
    by_cases h0 : q.capacity = 0
    · simp [h0]
    · rw [if_neg h0]
      exact Nat.le_mul_of_pos_right _ (Nat.pos_pow_of_pos _ (by norm_num))

/-- If resize did not report failure, the capacity now covers the
request. -/
theorem Queue_resize_ne_neg_one {α : Type} (alloc : Nat → Bool)
    (q : Memory_Profiler_Queue α) (rc : Nat)
    (h : (Memory_Profiler_Queue_resize alloc q rc).1 ≠ -1) :
    rc ≤ (Memory_Profiler_Queue_resize alloc q rc).2.capacity := by
  rcases Queue_resize_spec alloc q rc with ⟨hle, hr⟩ | ⟨h1, _⟩ | ⟨v, k, hr, hle, _⟩
  · rw [hr]; exact hle
  · exact absurd h1 h
  · rw [hr]; exact hle

/-- If resize did not return `1`, the queue is unchanged. -/
theorem Queue_resize_ne_one {α : Type} (alloc : Nat → Bool)
    (q : Memory_Profiler_Queue α) (rc : Nat)
    (h : (Memory_Profiler_Queue_resize alloc q rc).1 ≠ 1) :
    (Memory_Profiler_Queue_resize alloc q rc).2 = q := by
  rcases Queue_resize_spec alloc q rc with ⟨_, hr⟩ | ⟨_, hr⟩ | ⟨v, k, hr, _⟩
  · rw [hr]
  · exact hr
  · rw [hr] at h; exact absurd rfl h

/-- Capacities are always `0` or `128 · 2^k`, and resize preserves
that shape. -/
theorem Queue_resize_form {α : Type} (alloc : Nat → Bool)
    (q : Memory_Profiler_Queue α) (rc : Nat)
    (h : q.capacity = 0 ∨ ∃ k, q.capacity = MEMORY_PROFILER_QUEUE_DEFAULT_COUNT * 2 ^ k) :
    (Memory_Profiler_Queue_resize alloc q rc).2.capacity = 0 ∨
    ∃ k, (Memory_Profiler_Queue_resize alloc q rc).2.capacity =
      MEMORY_PROFILER_QUEUE_DEFAULT_COUNT * 2 ^ k := by
  rcases Queue_resize_spec alloc q rc with ⟨_, hr⟩ | ⟨_, hr⟩ | ⟨v, k, hr, _, hk, _⟩
  · rw [hr]; exact h
  · rw [hr]; exact h
  · rw [hr]
    right
    rcases h with h0 | ⟨j, hj⟩
    · exact ⟨k, by rw [hk, if_pos h0]⟩
    · refine ⟨j + k, ?_⟩
      rw [hk, if_neg (by simp [hj, MEMORY_PROFILER_QUEUE_DEFAULT_COUNT]), hj, pow_add]
      ring

/-- When all allocations succeed and the request (and the floor) fit
comfortably below `SIZE_MAX`, resize succeeds and the new capacity
covers the request without exceeding `max (2 · request) 128`. -/
theorem Queue_resize_success {α : Type} (alloc : Nat → Bool)
    (q : Memory_Profiler_Queue α) (rc : Nat)
    (hesz : 0 < q.element_size)
    (h2rc : 2 * rc * q.element_size ≤ SIZE_MAX)
    (h128 : MEMORY_PROFILER_QUEUE_DEFAULT_COUNT * q.element_size ≤ SIZE_MAX)
    (halloc : ∀ n, alloc n = true)
    (hcap : q.capacity < rc) :
    ∃ v, Memory_Profiler_Queue_resize alloc q rc = (1, { q with capacity := v }) ∧
      rc ≤ v ∧ v ≤ max (2 * rc) MEMORY_PROFILER_QUEUE_DEFAULT_COUNT := by
  have hstart1 : 1 ≤ (if q.capacity = 0 then MEMORY_PROFILER_QUEUE_DEFAULT_COUNT
      else q.capacity) := by
    split
    · norm_num [MEMORY_PROFILER_QUEUE_DEFAULT_COUNT]
    · omega
  have hrcdiv : rc ≤ SIZE_MAX / (2 * q.element_size) := by
    rw [Nat.le_div_iff_mul_le (by omega)]
    calc rc * (2 * q.element_size) = 2 * rc * q.element_size := by ring
    _ ≤ SIZE_MAX := h2rc
  obtain ⟨v, hv⟩ := resize_loop_total q.element_size _ rc hstart1 hrcdiv
  obtain ⟨hle, k, hk⟩ := resize_loop_some _ _ _ _ hv
  have hvbound : v ≤ max (2 * rc) MEMORY_PROFILER_QUEUE_DEFAULT_COUNT := by
    by_cases hlt : (if q.capacity = 0 then MEMORY_PROFILER_QUEUE_DEFAULT_COUNT
        else q.capacity) < rc
    · exact le_max_of_le_left (le_of_lt (resize_loop_lt _ _ _ _ hlt hv))
    · have hveq : v = (if q.capacity = 0 then MEMORY_PROFILER_QUEUE_DEFAULT_COUNT
          else q.capacity) := by
        unfold Memory_Profiler_Queue_resize_loop at hv
        rw [dif_neg hlt] at hv
        exact (Option.some.inj hv).symm
      by_cases h0 : q.capacity = 0
      · rw [hveq, if_pos h0]
        exact le_max_right _ _
      · rw [if_neg h0] at hlt
        omega
  have hguard : ¬ (SIZE_MAX / q.element_size < v) := by
    rw [not_lt, Nat.le_div_iff_mul_le hesz]
    have h1 : v * q.element_size ≤
        (max (2 * rc) MEMORY_PROFILER_QUEUE_DEFAULT_COUNT) * q.element_size :=
      Nat.mul_le_mul_right _ hvbound
    rcases max_cases (2 * rc) MEMORY_PROFILER_QUEUE_DEFAULT_COUNT with
      ⟨hm, _⟩ | ⟨hm, _⟩
    · rw [hm] at h1
      calc v * q.element_size ≤ 2 * rc * q.element_size := by
            exact le_trans h1 (le_of_eq (by ring))
      _ ≤ SIZE_MAX := h2rc
    · rw [hm] at h1
      exact le_trans h1 h128
  refine ⟨v, ?_, hle, hvbound⟩
  unfold Memory_Profiler_Queue_resize
  rw [if_neg (by omega)]
  simp only [hv, if_neg hguard, halloc, if_pos]

/-- Successful push: the reserved slot is the old tail, the count
grows by one and stays within capacity, the stored elements and the
element size are untouched, and the capacity can only have grown,
keeping its `0`-or-`128·2^k` shape. -/
theorem Queue_push_some {α : Type} (alloc : Nat → Bool)
    (q q' : Memory_Profiler_Queue α) (i : Nat)
    (h : Memory_Profiler_Queue_push alloc q = (some i, q')) :
    i = q.count ∧ q'.count = q.count + 1 ∧ q'.base = q.base ∧
    q'.element_size = q.element_size ∧ q.capacity ≤ q'.capacity ∧
    q'.count ≤ q'.capacity ∧
    ((q.capacity = 0 ∨ ∃ k, q.capacity = MEMORY_PROFILER_QUEUE_DEFAULT_COUNT * 2 ^ k) →
      (q'.capacity = 0 ∨ ∃ k, q'.capacity = MEMORY_PROFILER_QUEUE_DEFAULT_COUNT * 2 ^ k)) := by
  unfold Memory_Profiler_Queue_push at h
  by_cases hcap : q.capacity < q.count + 1
  · rw [if_pos hcap] at h
    by_cases hr : (Memory_Profiler_Queue_resize alloc q (q.count + 1)).1 = -1
    · rw [if_pos hr] at h
      exact absurd (congrArg Prod.fst h) (by simp)
    · rw [if_neg hr] at h
      obtain ⟨hcnt, hbase, hesz⟩ := Queue_resize_preserves alloc q (q.count + 1)
      have hcap2 := Queue_resize_ne_neg_one alloc q (q.count + 1) hr
      have hcaple := Queue_resize_capacity_le alloc q (q.count + 1)
      have hform := fun hf => Queue_resize_form alloc q (q.count + 1) hf
      obtain ⟨hi, hq'⟩ := Prod.mk.injEq .. ▸ h
      obtain rfl : i = q.count := by
        rw [← Option.some.inj hi, hcnt]
      refine ⟨rfl, ?_, ?_, ?_, ?_, ?_, ?_⟩
      · rw [← hq']; simp [hcnt]
      · rw [← hq']; simp [hbase]
      · rw [← hq']; simp [hesz]
      · rw [← hq']; simp [hcaple]
      · rw [← hq']; simp [hcnt]; omega
      · intro hf
        rw [← hq']
        simpa using hform hf
  · rw [if_neg hcap] at h
    obtain ⟨hi, hq'⟩ := Prod.mk.injEq .. ▸ h
    obtain rfl : i = q.count := (Option.some.inj hi).symm
    refine ⟨rfl, ?_, ?_, ?_, ?_, ?_, ?_⟩
    · rw [← hq']
    · rw [← hq']
    · rw [← hq']
    · rw [← hq']
    · rw [← hq']; simpa using by omega
    · intro hf; rw [← hq']; exact hf

/-- Failed push: the queue is returned unchanged. -/
theorem Queue_push_none {α : Type} (alloc : Nat → Bool)
    (q q' : Memory_Profiler_Queue α)
    (h : Memory_Profiler_Queue_push alloc q = (none, q')) :
    q' = q := by
  unfold Memory_Profiler_Queue_push at h
  by_cases hcap : q.capacity < q.count + 1
  · rw [if_pos hcap] at h
    by_cases hr : (Memory_Profiler_Queue_resize alloc q (q.count + 1)).1 = -1
    · rw [if_pos hr] at h
      obtain ⟨_, hq'⟩ := Prod.mk.injEq .. ▸ h
      rw [← hq', Queue_resize_ne_one alloc q (q.count + 1) (by rw [hr]; decide)]
    · rw [if_neg hr] at h
      exact absurd (congrArg Prod.fst h) (by simp)
  · rw [if_neg hcap] at h
    exact absurd (congrArg Prod.fst h) (by simp)

/-! ## Lemmas about the event store -/

theorem Events_update_queue_at (events : Memory_Profiler_Events)
    (which : Bool) (queue : Memory_Profiler_Queue Event) (j : Bool) :
    (Memory_Profiler_Events_update_queue events which queue).queues j =
      if j = which then queue else events.queues j := rfl

theorem Events_update_queue_self (events : Memory_Profiler_Events)
    (which : Bool) :
    Memory_Profiler_Events_update_queue events which (events.queues which) =
      events := by
  cases events with
  | mk queues available processing processing_flag =>
    unfold Memory_Profiler_Events_update_queue
    congr 1
    funext j
    by_cases hj : j = which
    · rw [if_pos hj, hj]
    · rw [if_neg hj]

/-- Appending one element to the logical contents: writing into the
freshly reserved tail slot of a successful push. -/
theorem Queue_records_push_set {α : Type} (q q' : Memory_Profiler_Queue α)
    (x : α) (hbase : q'.base = q.base) (hcount : q'.count = q.count + 1) :
    Memory_Profiler_Queue_records (Memory_Profiler_Queue_set q' q.count x) =
      Memory_Profiler_Queue_records q ++ [x] := by
  unfold Memory_Profiler_Queue_records Memory_Profiler_Queue_set
  simp only [hcount, hbase, List.range_succ, List.map_append, List.map_cons,
    List.map_nil, if_pos rfl]
  congr 1
  refine List.map_congr_left ?_
  intro j hj
  rw [if_neg]
  intro hje
  rw [hje] at hj
  exact absurd (List.mem_range.mp hj) (lt_irrefl _)

/-- Net effect of `Memory_Profiler_Events_enqueue`: the designations
and the guard are untouched, the queue that is not available is
untouched; on success the record is appended to the available queue's
contents and the postponed job is triggered; on failure the store is
completely unchanged and no trigger is requested. -/
theorem Events_enqueue_spec (alloc : Nat → Bool)
    (events : Memory_Profiler_Events) (type : Event_Type)
    (capture klass object : Value) :
    (Memory_Profiler_Events_enqueue alloc events type capture klass object).state.available
        = events.available ∧
    (Memory_Profiler_Events_enqueue alloc events type capture klass object).state.processing
        = events.processing ∧
    (Memory_Profiler_Events_enqueue alloc events type capture klass object).state.processing_flag
        = events.processing_flag ∧
    (∀ j, j ≠ events.available →
      (Memory_Profiler_Events_enqueue alloc events type capture klass object).state.queues j
        = events.queues j) ∧
    ((Memory_Profiler_Events_enqueue alloc events type capture klass object).ok = true →
      Memory_Profiler_Queue_records
          ((Memory_Profiler_Events_enqueue alloc events type capture klass object).state.queues
            events.available) =
        Memory_Profiler_Queue_records (events.queues events.available) ++
          [⟨type, capture, klass, object⟩] ∧
      (Memory_Profiler_Events_enqueue alloc events type capture klass object).triggered = true) ∧
    ((Memory_Profiler_Events_enqueue alloc events type capture klass object).ok = false →
      (Memory_Profiler_Events_enqueue alloc events type capture klass object).state = events ∧
      (Memory_Profiler_Events_enqueue alloc events type capture klass object).triggered = false) := by
  unfold Memory_Profiler_Events_enqueue
  cases hpush : Memory_Profiler_Queue_push alloc (events.queues events.available) with
  | mk oi q1 =>
    cases oi with
    | some i =>
      dsimp only
      obtain ⟨hi, hc, hb, _, _, _, _⟩ :=
        Queue_push_some alloc (events.queues events.available) q1 i hpush
      refine ⟨rfl, rfl, rfl, ?_, ?_, ?_⟩
      · intro j hj
        rw [Events_update_queue_at, if_neg hj]
      · intro _
        refine ⟨?_, rfl⟩
        rw [Events_update_queue_at, if_pos rfl, hi]
        exact Queue_records_push_set _ _ _ hb hc
      · intro hok
        exact absurd hok (by simp)
    | none =>
      dsimp only
      have hq1 : q1 = events.queues events.available :=
        Queue_push_none alloc _ _ hpush
      refine ⟨rfl, rfl, rfl, ?_, ?_, ?_⟩
      · intro j hj
        rw [Events_update_queue_at, if_neg hj]
      · intro hok
        exact absurd hok (by simp)
      · intro _
        refine ⟨?_, rfl⟩
        rw [hq1]
        exact Events_update_queue_self events events.available

theorem Events_process_loop_spec_aux (fault : Nat → Bool) :
    ∀ d (q : Memory_Profiler_Queue Event) (i : Nat), q.count - i ≤ d →
      ((Memory_Profiler_Events_process_loop fault q i).1.count = q.count ∧
       (Memory_Profiler_Events_process_loop fault q i).1.capacity = q.capacity ∧
       (Memory_Profiler_Events_process_loop fault q i).1.element_size = q.element_size ∧
       (∀ j, (Memory_Profiler_Events_process_loop fault q i).1.base j =
         if i ≤ j ∧ j < q.count then
           ⟨Event_Type.NONE, Value.Qnil, Value.Qnil, Value.Qnil⟩
         else q.base j) ∧
       (Memory_Profiler_Events_process_loop fault q i).2 =
         (List.range' i (q.count - i)).map (fun j => (q.base j, fault j))) := by
  intro d
  induction d with
  | zero =>
    intro q i hd
    unfold Memory_Profiler_Events_process_loop
    rw [dif_neg (by omega)]
    refine ⟨rfl, rfl, rfl, ?_, ?_⟩
    · intro j
      rw [if_neg (by omega)]
    · rw [(by omega : q.count - i = 0)]
      rfl
  | succ d ih =>
    intro q i hd
    by_cases hi : i < q.count
    · have step : Memory_Profiler_Events_process_loop fault q i =
        ((Memory_Profiler_Events_process_loop fault
            (Memory_Profiler_Queue_set q i
              ⟨Event_Type.NONE, Value.Qnil, Value.Qnil, Value.Qnil⟩) (i + 1)).1,
          (Memory_Profiler_Queue_at q i, fault i) ::
            (Memory_Profiler_Events_process_loop fault
              (Memory_Profiler_Queue_set q i
                ⟨Event_Type.NONE, Value.Qnil, Value.Qnil, Value.Qnil⟩) (i + 1)).2) := by
        rw [Memory_Profiler_Events_process_loop]
        rw [dif_pos hi]
      have hsetcount : (Memory_Profiler_Queue_set q i
          ⟨Event_Type.NONE, Value.Qnil, Value.Qnil, Value.Qnil⟩).count = q.count := rfl
      obtain ⟨ihc, ihcap, ihesz, ihbase, ihtr⟩ := ih
        (Memory_Profiler_Queue_set q i
          ⟨Event_Type.NONE, Value.Qnil, Value.Qnil, Value.Qnil⟩) (i + 1)
        (by rw [hsetcount]; omega)
      rw [step]
      refine ⟨by rw [ihc, hsetcount], by rw [ihcap]; rfl, by rw [ihesz]; rfl, ?_, ?_⟩
      · intro j
        rw [ihbase j, hsetcount]
        by_cases hj1 : i + 1 ≤ j ∧ j < q.count
        · rw [if_pos hj1, if_pos (by omega)]
        · rw [if_neg hj1]
          unfold Memory_Profiler_Queue_set
          by_cases hji : j = i
          · dsimp only
            rw [if_pos hji, if_pos (by omega)]
          · dsimp only
            rw [if_neg hji, if_neg (by omega)]
      · dsimp only
        rw [(by omega : q.count - i = (q.count - (i + 1)) + 1), List.range'_succ,
          List.map_cons]
        congr 1
        rw [ihtr, hsetcount]
        refine List.map_congr_left ?_
        intro j hj
        have hj2 := List.mem_range'.mp hj
        unfold Memory_Profiler_Queue_set
        dsimp only
        rw [if_neg (by omega)]
    · unfold Memory_Profiler_Events_process_loop
      rw [dif_neg hi]
      refine ⟨rfl, rfl, rfl, ?_, ?_⟩
      · intro j
        rw [if_neg (by omega)]
      · rw [(by omega : q.count - i = 0)]
        rfl

/-- Full description of the processing loop: the trace dispatches the
slots `i, …, count-1` in order (faults recorded, never propagated), the
processed slots end up reset to the sentinel with all references
cleared, and `count`, `capacity`, `element_size` are untouched. -/
theorem Events_process_loop_spec (fault : Nat → Bool)
    (q : Memory_Profiler_Queue Event) (i : Nat) :
    (Memory_Profiler_Events_process_loop fault q i).1.count = q.count ∧
    (Memory_Profiler_Events_process_loop fault q i).1.capacity = q.capacity ∧
    (Memory_Profiler_Events_process_loop fault q i).1.element_size = q.element_size ∧
    (∀ j, (Memory_Profiler_Events_process_loop fault q i).1.base j =
      if i ≤ j ∧ j < q.count then
        ⟨Event_Type.NONE, Value.Qnil, Value.Qnil, Value.Qnil⟩
      else q.base j) ∧
    (Memory_Profiler_Events_process_loop fault q i).2 =
      (List.range' i (q.count - i)).map (fun j => (q.base j, fault j)) :=
  Events_process_loop_spec_aux fault (q.count - i) q i le_rfl

/-- Full description of a non-nested drain: the guard ends released,
the queues have swapped roles, the queue that was processing (now
available) is untouched, the queue that was available (now processing)
has logical count 0 with every previously occupied slot reset to the
cleared sentinel, and the dispatch trace runs over the old available
contents in insertion order. -/
theorem Events_process_queue_spec (fault : Nat → Bool)
    (events : Memory_Profiler_Events)
    (hflag : events.processing_flag = false)
    (hne : events.available ≠ events.processing) :
    (Memory_Profiler_Events_process_queue fault events).1.processing_flag = false ∧
    (Memory_Profiler_Events_process_queue fault events).1.available = events.processing ∧
    (Memory_Profiler_Events_process_queue fault events).1.processing = events.available ∧
    (Memory_Profiler_Events_process_queue fault events).1.queues events.processing =
      events.queues events.processing ∧
    ((Memory_Profiler_Events_process_queue fault events).1.queues events.available).count = 0 ∧
    ((Memory_Profiler_Events_process_queue fault events).1.queues events.available).capacity =
      (events.queues events.available).capacity ∧
    (∀ j, j < (events.queues events.available).count →
      ((Memory_Profiler_Events_process_queue fault events).1.queues events.available).base j =
        ⟨Event_Type.NONE, Value.Qnil, Value.Qnil, Value.Qnil⟩) ∧
    (Memory_Profiler_Events_process_queue fault events).2 =
      (List.range (events.queues events.available).count).map
        (fun j => ((events.queues events.available).base j, fault j)) := by
  unfold Memory_Profiler_Events_process_queue
  rw [hflag, if_neg Bool.false_ne_true]
  obtain ⟨hc, hcap, hesz, hbase, htr⟩ := Events_process_loop_spec fault
    (events.queues events.available) 0
  refine ⟨rfl, rfl, rfl, ?_, ?_, ?_, ?_, ?_⟩
  · dsimp only
    rw [Events_update_queue_at, if_neg (fun h => hne h.symm)]
  · dsimp only
    rw [Events_update_queue_at, if_pos rfl]
    rfl
  · dsimp only
    rw [Events_update_queue_at, if_pos rfl]
    exact hcap
  · intro j hj
    dsimp only
    rw [Events_update_queue_at, if_pos rfl]
    show (Memory_Profiler_Events_process_loop fault
      (events.queues events.available) 0).1.base j = _
    rw [hbase j, if_pos ⟨Nat.zero_le j, hj⟩]
  · dsimp only
    rw [htr, Nat.sub_zero, List.range_eq_range' (events.queues events.available).count]

/-- The steady-state invariant of the event store between operations:
guard released, the two designations name distinct queues, and the
processing queue is logically empty. -/
def EventsInv (events : Memory_Profiler_Events) : Prop :=
  events.processing_flag = false ∧
  events.available ≠ events.processing ∧
  (events.queues events.processing).count = 0

theorem EventsInv_new : EventsInv Memory_Profiler_Events_new :=
  ⟨rfl, by decide, rfl⟩

/-- Running a sequence of operations preserves the invariant, and the
dispatch trace plus what is still pending in the available queue
accounts exactly, in order, for the records pending at the start plus
every successfully enqueued record. -/
theorem Events_run_spec : ∀ (ops : List EventsOp) (events : Memory_Profiler_Events),
    EventsInv events →
    EventsInv (Memory_Profiler_Events_run events ops).1 ∧
    (Memory_Profiler_Events_run events ops).2.2.map Prod.fst ++
        Memory_Profiler_Queue_records
          ((Memory_Profiler_Events_run events ops).1.queues
            (Memory_Profiler_Events_run events ops).1.available) =
      Memory_Profiler_Queue_records (events.queues events.available) ++
        (Memory_Profiler_Events_run events ops).2.1 := by
  intro ops
  induction ops with
  | nil =>
    intro events hinv
    exact ⟨hinv, by simp [Memory_Profiler_Events_run]⟩
  | cons op ops ih =>
    intro events hinv
    obtain ⟨hflag, hne, hpcount⟩ := hinv
    cases op with
    | enqueue alloc type capture klass object =>
      obtain ⟨hav, hpr, hfl, hother, hok, hfail⟩ :=
        Events_enqueue_spec alloc events type capture klass object
      set s1 := (Memory_Profiler_Events_enqueue alloc events type capture klass object).state
        with hs1
      have hstep : Memory_Profiler_Events_run events
          (EventsOp.enqueue alloc type capture klass object :: ops) =
        ((Memory_Profiler_Events_run s1 ops).1,
          (if (Memory_Profiler_Events_enqueue alloc events type capture klass object).ok
            then [⟨type, capture, klass, object⟩] else []) ++
            (Memory_Profiler_Events_run s1 ops).2.1,
          [] ++ (Memory_Profiler_Events_run s1 ops).2.2) := rfl
      have hinv1 : EventsInv s1 := by
        refine ⟨by rw [hfl, hflag], by rw [hav, hpr]; exact hne, ?_⟩
        rw [hpr, hother events.processing (fun h => hne h.symm)]
        exact hpcount
      obtain ⟨ihinv, iheq⟩ := ih s1 hinv1
      rw [hstep]
      refine ⟨ihinv, ?_⟩
      dsimp only
      rw [List.nil_append]
      cases hokv : (Memory_Profiler_Events_enqueue alloc events type capture klass object).ok with
      | true =>
        obtain ⟨hrec, _⟩ := hok hokv
        rw [if_pos rfl, iheq, hav, hrec, List.append_assoc]
      | false =>
        obtain ⟨hst, _⟩ := hfail hokv
        rw [if_neg (by simp), iheq, hst, List.nil_append]
    | drain fault =>
      obtain ⟨pf, pav, ppr, pother, pcount, pcap, pbase, ptr⟩ :=
        Events_process_queue_spec fault events hflag hne
      set s1 := (Memory_Profiler_Events_process_queue fault events).1 with hs1
      have hstep : Memory_Profiler_Events_run events (EventsOp.drain fault :: ops) =
        ((Memory_Profiler_Events_run s1 ops).1,
          [] ++ (Memory_Profiler_Events_run s1 ops).2.1,
          (Memory_Profiler_Events_process_queue fault events).2 ++
            (Memory_Profiler_Events_run s1 ops).2.2) := rfl
      have hinv1 : EventsInv s1 := by
        refine ⟨pf, ?_, ?_⟩
        · rw [pav, ppr]
          exact fun h => hne h.symm
        · rw [ppr]
          exact pcount
      obtain ⟨ihinv, iheq⟩ := ih s1 hinv1
      rw [hstep]
      refine ⟨ihinv, ?_⟩
      dsimp only
      rw [List.nil_append, List.map_append, List.append_assoc, iheq]
      have hrecs1 : Memory_Profiler_Queue_records (s1.queues s1.available) =
          Memory_Profiler_Queue_records (events.queues events.processing) := by
        rw [pav, pother]
      have htrmap : (Memory_Profiler_Events_process_queue fault events).2.map Prod.fst =
          Memory_Profiler_Queue_records (events.queues events.available) := by
        rw [ptr, Memory_Profiler_Queue_records, List.map_map]
        rfl
      have hempty : Memory_Profiler_Queue_records (events.queues events.processing) = [] := by
        rw [Memory_Profiler_Queue_records, hpcount]
        rfl
      rw [hrecs1, htrmap, hempty, List.nil_append]

theorem Events_run_cons (events : Memory_Profiler_Events) (op : EventsOp)
    (ops : List EventsOp) :
    Memory_Profiler_Events_run events (op :: ops) =
      ((Memory_Profiler_Events_run (Memory_Profiler_Events_step events op).1 ops).1,
        (Memory_Profiler_Events_step events op).2.1 ++
          (Memory_Profiler_Events_run (Memory_Profiler_Events_step events op).1 ops).2.1,
        (Memory_Profiler_Events_step events op).2.2 ++
          (Memory_Profiler_Events_run (Memory_Profiler_Events_step events op).1 ops).2.2) := rfl

theorem Events_run_append (l1 l2 : List EventsOp) :
    ∀ events : Memory_Profiler_Events,
    Memory_Profiler_Events_run events (l1 ++ l2) =
      ((Memory_Profiler_Events_run (Memory_Profiler_Events_run events l1).1 l2).1,
        (Memory_Profiler_Events_run events l1).2.1 ++
          (Memory_Profiler_Events_run (Memory_Profiler_Events_run events l1).1 l2).2.1,
        (Memory_Profiler_Events_run events l1).2.2 ++
          (Memory_Profiler_Events_run (Memory_Profiler_Events_run events l1).1 l2).2.2) := by
  induction l1 with
  | nil =>
    intro events
    simp [Memory_Profiler_Events_run]
  | cons op l1 ih =>
    intro events
    rw [List.cons_append, Events_run_cons, ih, Events_run_cons]
    simp [List.append_assoc]

/-- C1.  For every interleaving of enqueue calls and drain triggers
(each with its own allocation and handler-fault environment), appending
one final drain makes the total dispatch trace exactly the sequence of
successfully enqueued records, in insertion order: every successfully
enqueued record is dispatched exactly once, in order — in particular a
record enqueued earlier (e.g. an entity's creation event) is dispatched
strictly before any record enqueued later (e.g. its destruction
event). -/
theorem claim_C1_enqueued_dispatched_exactly_once_in_order
    (ops : List EventsOp) (fault : Nat → Bool) :
    (Memory_Profiler_Events_run Memory_Profiler_Events_new
        (ops ++ [EventsOp.drain fault])).2.2.map Prod.fst =
      (Memory_Profiler_Events_run Memory_Profiler_Events_new ops).2.1 := by
  obtain ⟨⟨hflag, hne, hpcount⟩, heq⟩ :=
    Events_run_spec ops Memory_Profiler_Events_new EventsInv_new
  rw [Events_run_append ops [EventsOp.drain fault] Memory_Profiler_Events_new]
  set s1 := (Memory_Profiler_Events_run Memory_Profiler_Events_new ops).1 with hs1
  obtain ⟨pf, pav, ppr, pother, pcount, pcap, pbase, ptr⟩ :=
    Events_process_queue_spec fault s1 hflag hne
  have hdrain : Memory_Profiler_Events_run s1 [EventsOp.drain fault] =
      ((Memory_Profiler_Events_process_queue fault s1).1,
        [], (Memory_Profiler_Events_process_queue fault s1).2 ++ []) := rfl
  dsimp only
  rw [hdrain]
  dsimp only
  rw [List.append_nil, List.map_append, ptr]
  have htrmap : (List.map (fun j => ((s1.queues s1.available).base j, fault j))
        (List.range (s1.queues s1.available).count)).map Prod.fst =
      Memory_Profiler_Queue_records (s1.queues s1.available) := by
    rw [Memory_Profiler_Queue_records, List.map_map]
    rfl
  rw [htrmap]
  have hinit : Memory_Profiler_Queue_records
      (Memory_Profiler_Events_new.queues Memory_Profiler_Events_new.available) = [] := rfl
  rw [hinit, List.nil_append] at heq
  exact heq

theorem Queue_ext {α : Type} (q1 q2 : Memory_Profiler_Queue α)
    (hb : q1.base = q2.base) (hcap : q1.capacity = q2.capacity)
    (hc : q1.count = q2.count) (he : q1.element_size = q2.element_size) :
    q1 = q2 := by
  cases q1
  cases q2
  simp_all

/-- The queue left behind by the processing loop does not depend on
which handler invocations faulted. -/
theorem Events_process_loop_state_indep (fault fault' : Nat → Bool)
    (q : Memory_Profiler_Queue Event) (i : Nat) :
    (Memory_Profiler_Events_process_loop fault q i).1 =
      (Memory_Profiler_Events_process_loop fault' q i).1 := by
  obtain ⟨hc, hcap, hesz, hbase, _⟩ := Events_process_loop_spec fault q i
  obtain ⟨hc', hcap', hesz', hbase', _⟩ := Events_process_loop_spec fault' q i
  refine Queue_ext _ _ ?_ (by rw [hcap, hcap']) (by rw [hc, hc']) (by rw [hesz, hesz'])
  funext j
  rw [hbase j, hbase' j]

/-- C2.  A drain request arriving while the store is already draining
is silently ignored on the implicit postponed-job path (the state is
returned unchanged and nothing is dispatched), while the explicit
synchronous flush path raises the unrecoverable `RuntimeError`; in
both cases the dispatch trace is empty, so no record is processed
(let alone processed twice). -/
theorem claim_C2_reentrant_drain (fault : Nat → Bool)
    (events : Memory_Profiler_Events)
    (hflag : events.processing_flag = true) :
    Memory_Profiler_Events_process_queue fault events = (events, []) ∧
    Memory_Profiler_Events_process_all fault events =
      Except.error "Recursive call detected!" := by
  constructor
  · unfold Memory_Profiler_Events_process_queue
    rw [hflag, if_pos rfl]
  · unfold Memory_Profiler_Events_process_all
    rw [hflag, if_pos rfl]

theorem claim_C2_reentrant_drain_witness :
    ({ Memory_Profiler_Events_new with processing_flag := true
      } : Memory_Profiler_Events).processing_flag = true ∧
    (Memory_Profiler_Events_process_queue (fun _ => false)
        { Memory_Profiler_Events_new with processing_flag := true } =
      ({ Memory_Profiler_Events_new with processing_flag := true }, []) ∧
    Memory_Profiler_Events_process_all (fun _ => false)
        { Memory_Profiler_Events_new with processing_flag := true } =
      Except.error "Recursive call detected!") :=
  ⟨rfl, claim_C2_reentrant_drain (fun _ => false)
    { Memory_Profiler_Events_new with processing_flag := true } rfl⟩

/-- C3.  During a drain, every dispatched slot is reset to the
sentinel with its three references cleared while the queue's logical
count is still the pre-drain count (the count is zeroed only by the
`clear` that runs after the whole loop); once the drain completes, the
processing queue's logical count is 0, a mark walk over it visits no
references, and even the slots up to the old count hold only cleared
sentinels. -/
theorem claim_C3_slots_cleared_before_count_zeroed (fault : Nat → Bool)
    (events : Memory_Profiler_Events)
    (hflag : events.processing_flag = false)
    (hne : events.available ≠ events.processing) :
    ((Memory_Profiler_Events_process_loop fault (events.queues events.available) 0).1.count =
      (events.queues events.available).count ∧
     (∀ j, j < (events.queues events.available).count →
       (Memory_Profiler_Events_process_loop fault (events.queues events.available) 0).1.base j =
         ⟨Event_Type.NONE, Value.Qnil, Value.Qnil, Value.Qnil⟩)) ∧
    (((Memory_Profiler_Events_process_queue fault events).1.queues
        (Memory_Profiler_Events_process_queue fault events).1.processing).count = 0 ∧
     Memory_Profiler_Events_mark_queue
       ((Memory_Profiler_Events_process_queue fault events).1.queues
         (Memory_Profiler_Events_process_queue fault events).1.processing) true = [] ∧
     (∀ j, j < (events.queues events.available).count →
       ((Memory_Profiler_Events_process_queue fault events).1.queues
         (Memory_Profiler_Events_process_queue fault events).1.processing).base j =
           ⟨Event_Type.NONE, Value.Qnil, Value.Qnil, Value.Qnil⟩)) := by
  obtain ⟨hc, _, _, hbase, _⟩ :=
    Events_process_loop_spec fault (events.queues events.available) 0
  obtain ⟨pf, pav, ppr, pother, pcount, pcap, pbase, ptr⟩ :=
    Events_process_queue_spec fault events hflag hne
  refine ⟨⟨hc, ?_⟩, ?_, ?_, ?_⟩
  · intro j hj
    rw [hbase j, if_pos ⟨Nat.zero_le j, hj⟩]
  · rw [ppr]
    exact pcount
  · rw [ppr]
    unfold Memory_Profiler_Events_mark_queue
    rw [pcount]
    rfl
  · intro j hj
    rw [ppr]
    exact pbase j hj

/-- C4.  Handler faults are contained per record: the drain dispatches
every queued record in order regardless of which handler invocations
fault (so a record whose handler faults is still consumed, and the
records before and after it are still dispatched), the trace and the
final store are identical to a fault-free drain (no retries, no early
abort), and the surrounding flush returns normally rather than
raising. -/
theorem claim_C4_handler_fault_containment (fault : Nat → Bool)
    (events : Memory_Profiler_Events)
    (hflag : events.processing_flag = false)
    (hne : events.available ≠ events.processing) :
    (Memory_Profiler_Events_process_queue fault events).2.map Prod.fst =
      Memory_Profiler_Queue_records (events.queues events.available) ∧
    (Memory_Profiler_Events_process_queue fault events).2.map Prod.fst =
      (Memory_Profiler_Events_process_queue (fun _ => false) events).2.map Prod.fst ∧
    (Memory_Profiler_Events_process_queue fault events).1 =
      (Memory_Profiler_Events_process_queue (fun _ => false) events).1 ∧
    Memory_Profiler_Events_process_all fault events =
      Except.ok (Memory_Profiler_Events_process_queue fault events) := by
  obtain ⟨_, _, _, _, _, _, _, ptr⟩ :=
    Events_process_queue_spec fault events hflag hne
  obtain ⟨_, _, _, _, _, _, _, ptr'⟩ :=
    Events_process_queue_spec (fun _ => false) events hflag hne
  have htr : (Memory_Profiler_Events_process_queue fault events).2.map Prod.fst =
      Memory_Profiler_Queue_records (events.queues events.available) := by
    rw [ptr, Memory_Profiler_Queue_records, List.map_map]
    rfl
  have htr' : (Memory_Profiler_Events_process_queue (fun _ => false) events).2.map Prod.fst =
      Memory_Profiler_Queue_records (events.queues events.available) := by
    rw [ptr', Memory_Profiler_Queue_records, List.map_map]
    rfl
  refine ⟨htr, by rw [htr, htr'], ?_, ?_⟩
  · unfold Memory_Profiler_Events_process_queue
    rw [hflag]
    simp only [Bool.false_eq_true, if_false]
    rw [Events_process_loop_state_indep fault (fun _ => false)]
  · unfold Memory_Profiler_Events_process_all
    rw [hflag, if_neg Bool.false_ne_true]

theorem compact_queue_count (loc : Value → Value)
    (queue : Memory_Profiler_Queue Event) (skip_if_no_type : Bool) :
    (Memory_Profiler_Events_compact_queue loc queue skip_if_no_type).count =
      queue.count := rfl

theorem compact_queue_base_lt (loc : Value → Value)
    (queue : Memory_Profiler_Queue Event) (skip_if_no_type : Bool) (i : Nat)
    (hi : i < queue.count) :
    (Memory_Profiler_Events_compact_queue loc queue skip_if_no_type).base i =
      (if skip_if_no_type = true ∧ (queue.base i).type = Event_Type.NONE then
        queue.base i
      else
        { queue.base i with
          capture := loc (queue.base i).capture
          klass := loc (queue.base i).klass
          object := if (queue.base i).type = Event_Type.NEWOBJ then
            loc (queue.base i).object else (queue.base i).object }) := by
  unfold Memory_Profiler_Events_compact_queue
  dsimp only
  rw [if_pos hi]

/-- The references any one non-skipped slot holds all occur in the
mark-walk trace of its queue. -/
theorem mark_queue_mem (queue : Memory_Profiler_Queue Event)
    (skip_if_no_type : Bool) (i : Nat) (hi : i < queue.count)
    (hns : ¬(skip_if_no_type = true ∧ (queue.base i).type = Event_Type.NONE)) :
    (queue.base i).capture ∈ Memory_Profiler_Events_mark_queue queue skip_if_no_type ∧
    (queue.base i).klass ∈ Memory_Profiler_Events_mark_queue queue skip_if_no_type ∧
    ((queue.base i).type = Event_Type.NEWOBJ →
      (queue.base i).object ∈ Memory_Profiler_Events_mark_queue queue skip_if_no_type) := by
  unfold Memory_Profiler_Events_mark_queue
  refine ⟨?_, ?_, ?_⟩
  · exact List.mem_flatMap.mpr ⟨i, List.mem_range.mpr hi, by
      dsimp only [Memory_Profiler_Queue_at]
      rw [if_neg hns]; simp⟩
  · exact List.mem_flatMap.mpr ⟨i, List.mem_range.mpr hi, by
      dsimp only [Memory_Profiler_Queue_at]
      rw [if_neg hns]; simp⟩
  · intro hnew
    exact List.mem_flatMap.mpr ⟨i, List.mem_range.mpr hi, by
      dsimp only [Memory_Profiler_Queue_at]
      rw [if_neg hns]
      simp [hnew]⟩

/-- The relocation walk visits exactly the references the mark walk
visits: marking a compacted queue yields the relocated mark trace. -/
theorem mark_queue_compact_queue (loc : Value → Value)
    (queue : Memory_Profiler_Queue Event) (skip_if_no_type : Bool) :
    Memory_Profiler_Events_mark_queue
        (Memory_Profiler_Events_compact_queue loc queue skip_if_no_type)
        skip_if_no_type =
      (Memory_Profiler_Events_mark_queue queue skip_if_no_type).map loc := by
  unfold Memory_Profiler_Events_mark_queue
  rw [compact_queue_count, List.map_flatMap]
  refine List.flatMap_congr ?_
  intro i hi
  have hi2 : i < queue.count := List.mem_range.mp hi
  dsimp only [Memory_Profiler_Queue_at]
  rw [compact_queue_base_lt loc queue skip_if_no_type i hi2]
  by_cases hns : skip_if_no_type = true ∧ (queue.base i).type = Event_Type.NONE
  · rw [if_pos hns]
    rw [if_pos hns]
    rfl
  · rw [if_neg hns]
    dsimp only
    rw [if_neg hns, if_neg hns]
    by_cases hnew : (queue.base i).type = Event_Type.NEWOBJ
    · simp [hnew]
    · simp [hnew]

/-- C9.  The collector walks: the mark walk over the store visits every
reference of every slot below the available queue's count (no slot is
skipped there), and every reference of every non-sentinel slot below
the processing queue's count (sentinel slots are skipped); the
relocation/compaction walk is the identical walk — compacting and then
marking yields exactly the mark trace with every visited reference
relocated, both per queue and for the whole store. -/
theorem claim_C9_mark_and_compact_walk_coverage
    (events : Memory_Profiler_Events) (loc : Value → Value) :
    (∀ i, i < (events.queues events.available).count →
      ((events.queues events.available).base i).capture ∈ Memory_Profiler_Events_mark events ∧
      ((events.queues events.available).base i).klass ∈ Memory_Profiler_Events_mark events ∧
      (((events.queues events.available).base i).type = Event_Type.NEWOBJ →
        ((events.queues events.available).base i).object ∈ Memory_Profiler_Events_mark events)) ∧
    (∀ i, i < (events.queues events.processing).count →
      ((events.queues events.processing).base i).type ≠ Event_Type.NONE →
      ((events.queues events.processing).base i).capture ∈ Memory_Profiler_Events_mark events ∧
      ((events.queues events.processing).base i).klass ∈ Memory_Profiler_Events_mark events ∧
      (((events.queues events.processing).base i).type = Event_Type.NEWOBJ →
        ((events.queues events.processing).base i).object ∈ Memory_Profiler_Events_mark events)) ∧
    (∀ (queue : Memory_Profiler_Queue Event) (skip_if_no_type : Bool),
      Memory_Profiler_Events_mark_queue
          (Memory_Profiler_Events_compact_queue loc queue skip_if_no_type)
          skip_if_no_type =
        (Memory_Profiler_Events_mark_queue queue skip_if_no_type).map loc) ∧
    (events.available ≠ events.processing →
      Memory_Profiler_Events_mark (Memory_Profiler_Events_compact loc events) =
        (Memory_Profiler_Events_mark events).map loc) := by
  refine ⟨?_, ?_, ?_, ?_⟩
  · intro i hi
    obtain ⟨h1, h2, h3⟩ := mark_queue_mem (events.queues events.available) false i hi
      (by simp)
    unfold Memory_Profiler_Events_mark
    exact ⟨List.mem_append.mpr (Or.inl h1), List.mem_append.mpr (Or.inl h2),
      fun hnew => List.mem_append.mpr (Or.inl (h3 hnew))⟩
  · intro i hi hns
    obtain ⟨h1, h2, h3⟩ := mark_queue_mem (events.queues events.processing) true i hi
      (by simp [hns])
    unfold Memory_Profiler_Events_mark
    exact ⟨List.mem_append.mpr (Or.inr h1), List.mem_append.mpr (Or.inr h2),
      fun hnew => List.mem_append.mpr (Or.inr (h3 hnew))⟩
  · intro queue skip_if_no_type
    exact mark_queue_compact_queue loc queue skip_if_no_type
  · intro hne
    have hne' : events.processing ≠ events.available := fun h => hne h.symm
    unfold Memory_Profiler_Events_compact Memory_Profiler_Events_mark
      Memory_Profiler_Events_update_queue
    dsimp only
    simp only [if_neg hne, if_neg hne', if_pos rfl, if_true]
    rw [mark_queue_compact_queue, mark_queue_compact_queue, List.map_append]

/-- C10.  The `object` reference of a Freed (`FREEOBJ`) record is
stored into its slot on enqueue through the write barrier, but the
walks never touch it: changing the `object` field of a `FREEOBJ` slot
does not change the mark trace (either queue mode), and relocation
rewrites only `capture` and `klass` of such a slot, leaving `object`
as stored; on an Allocated (`NEWOBJ`) slot the `object` is marked and
relocated, and `capture`/`klass` are marked and relocated for every
non-sentinel slot regardless of kind. -/
theorem claim_C10_freeobj_object_not_visited
    (alloc : Nat → Bool) (events : Memory_Profiler_Events)
    (capture klass object : Value) (loc : Value → Value)
    (queue : Memory_Profiler_Queue Event) (skip_if_no_type : Bool)
    (i : Nat) (v : Value) :
    ((Memory_Profiler_Events_enqueue alloc events
        Event_Type.FREEOBJ capture klass object).ok = true →
      ((Memory_Profiler_Events_enqueue alloc events
          Event_Type.FREEOBJ capture klass object).state.queues
            events.available).base ((events.queues events.available).count) =
        ⟨Event_Type.FREEOBJ, capture, klass, object⟩ ∧
      object ∈ (Memory_Profiler_Events_enqueue alloc events
        Event_Type.FREEOBJ capture klass object).barriered) ∧
    (i < queue.count → (queue.base i).type = Event_Type.FREEOBJ →
      Memory_Profiler_Events_mark_queue
          (Memory_Profiler_Queue_set queue i { queue.base i with object := v })
          skip_if_no_type =
        Memory_Profiler_Events_mark_queue queue skip_if_no_type ∧
      (Memory_Profiler_Events_compact_queue loc queue skip_if_no_type).base i =
        { queue.base i with
            capture := loc (queue.base i).capture
            klass := loc (queue.base i).klass }) ∧
    (i < queue.count → (queue.base i).type = Event_Type.NEWOBJ →
      (queue.base i).object ∈
        Memory_Profiler_Events_mark_queue queue skip_if_no_type ∧
      (Memory_Profiler_Events_compact_queue loc queue skip_if_no_type).base i =
        { queue.base i with
            capture := loc (queue.base i).capture
            klass := loc (queue.base i).klass
            object := loc (queue.base i).object }) ∧
    (i < queue.count → (queue.base i).type ≠ Event_Type.NONE →
      (queue.base i).capture ∈
        Memory_Profiler_Events_mark_queue queue skip_if_no_type ∧
      (queue.base i).klass ∈
        Memory_Profiler_Events_mark_queue queue skip_if_no_type ∧
      ((Memory_Profiler_Events_compact_queue loc queue skip_if_no_type).base i).capture =
        loc (queue.base i).capture ∧
      ((Memory_Profiler_Events_compact_queue loc queue skip_if_no_type).base i).klass =
        loc (queue.base i).klass) := by
  refine ⟨?_, ?_, ?_, ?_⟩
  · intro hok
    unfold Memory_Profiler_Events_enqueue at hok ⊢
    cases hpush : Memory_Profiler_Queue_push alloc (events.queues events.available) with
    | mk oi q1 =>
      cases oi with
      | some j =>
        dsimp only
        obtain ⟨hj, _, _, _, _, _, _⟩ :=
          Queue_push_some alloc (events.queues events.available) q1 j hpush
        refine ⟨?_, by simp⟩
        rw [Events_update_queue_at, if_pos rfl]
        unfold Memory_Profiler_Queue_set
        dsimp only
        rw [if_pos hj.symm]
      | none =>
        rw [hpush] at hok
        exact absurd hok (by simp)
  · intro hi hfree
    have hskip : ¬(skip_if_no_type = true ∧
        (queue.base i).type = Event_Type.NONE) := by simp [hfree]
    have hnotnew : ¬((queue.base i).type = Event_Type.NEWOBJ) := by simp [hfree]
    constructor
    · unfold Memory_Profiler_Events_mark_queue
      have hcount : (Memory_Profiler_Queue_set queue i
          { queue.base i with object := v }).count = queue.count := rfl
      rw [hcount]
      refine List.flatMap_congr ?_
      intro j hj
      dsimp only [Memory_Profiler_Queue_at, Memory_Profiler_Queue_set]
      by_cases hji : j = i
      · rw [if_pos hji, hji]
        dsimp only
        rw [if_neg hskip, if_neg hskip, if_neg hnotnew, if_neg hnotnew]
      · rw [if_neg hji]
    · rw [compact_queue_base_lt loc queue skip_if_no_type i hi,
        if_neg hskip, if_neg hnotnew]
  · intro hi hnew
    have hskip : ¬(skip_if_no_type = true ∧
        (queue.base i).type = Event_Type.NONE) := by simp [hnew]
    refine ⟨(mark_queue_mem queue skip_if_no_type i hi hskip).2.2 hnew, ?_⟩
    rw [compact_queue_base_lt loc queue skip_if_no_type i hi,
      if_neg hskip, if_pos hnew]
  · intro hi hns
    have hskip : ¬(skip_if_no_type = true ∧
        (queue.base i).type = Event_Type.NONE) := by simp [hns]
    obtain ⟨h1, h2, _⟩ := mark_queue_mem queue skip_if_no_type i hi hskip
    refine ⟨h1, h2, ?_, ?_⟩
    · rw [compact_queue_base_lt loc queue skip_if_no_type i hi, if_neg hskip]
    · rw [compact_queue_base_lt loc queue skip_if_no_type i hi, if_neg hskip]

/-- Pushing one record: reserve the tail slot with
`Memory_Profiler_Queue_push` and write the record through the returned
pointer (exactly the enqueue pattern of `events.c`). -/
def Memory_Profiler_Queue_push_value {α : Type} (alloc : Nat → Bool)
    (queue : Memory_Profiler_Queue α) (x : α) : Memory_Profiler_Queue α :=
  match Memory_Profiler_Queue_push alloc queue with
  | (some i, queue') => Memory_Profiler_Queue_set queue' i x
  | (none, queue') => queue'

/-- Push `values 0, …, values (n-1)` in order. -/
def Memory_Profiler_Queue_pushN {α : Type} (alloc : Nat → Bool)
    (values : Nat → α) (queue : Memory_Profiler_Queue α) :
    Nat → Memory_Profiler_Queue α
  | 0 => queue
  | n + 1 => Memory_Profiler_Queue_push_value alloc
      (Memory_Profiler_Queue_pushN alloc values queue n) (values n)

theorem Queue_push_computed_grow {α : Type} (alloc : Nat → Bool)
    (q : Memory_Profiler_Queue α) (v : Nat)
    (hcap : q.capacity < q.count + 1)
    (hres : Memory_Profiler_Queue_resize alloc q (q.count + 1) =
      (1, { q with capacity := v })) :
    Memory_Profiler_Queue_push alloc q =
      (some q.count, { q with capacity := v, count := q.count + 1 }) := by
  unfold Memory_Profiler_Queue_push
  rw [if_pos hcap, hres]
  rfl

theorem Queue_push_computed_fit {α : Type} (alloc : Nat → Bool)
    (q : Memory_Profiler_Queue α) (hcap : ¬(q.capacity < q.count + 1)) :
    Memory_Profiler_Queue_push alloc q =
      (some q.count, { q with count := q.count + 1 }) := by
  unfold Memory_Profiler_Queue_push
  rw [if_neg hcap]

/-- State after `n` successful pushes against an always-succeeding
allocator, starting from an empty queue: count is `n`, capacity covers
it, capacity has the `0`-or-`128·2^k` shape and stays within
`max (2n) 128`, and every pushed record is retrievable unchanged. -/
theorem Queue_pushN_spec {α : Type} [Inhabited α] (alloc : Nat → Bool)
    (halloc : ∀ m, alloc m = true) (values : Nat → α) (esz : Nat)
    (hesz : 0 < esz)
    (h128 : MEMORY_PROFILER_QUEUE_DEFAULT_COUNT * esz ≤ SIZE_MAX) :
    ∀ n, 2 * n * esz ≤ SIZE_MAX →
      (Memory_Profiler_Queue_pushN alloc values
        (Memory_Profiler_Queue_make α esz) n).count = n ∧
      n ≤ (Memory_Profiler_Queue_pushN alloc values
        (Memory_Profiler_Queue_make α esz) n).capacity ∧
      ((Memory_Profiler_Queue_pushN alloc values
          (Memory_Profiler_Queue_make α esz) n).capacity = 0 ∨
        ∃ k, (Memory_Profiler_Queue_pushN alloc values
          (Memory_Profiler_Queue_make α esz) n).capacity =
            MEMORY_PROFILER_QUEUE_DEFAULT_COUNT * 2 ^ k) ∧
      (Memory_Profiler_Queue_pushN alloc values
        (Memory_Profiler_Queue_make α esz) n).capacity ≤
          max (2 * n) MEMORY_PROFILER_QUEUE_DEFAULT_COUNT ∧
      (∀ j, j < n → (Memory_Profiler_Queue_pushN alloc values
        (Memory_Profiler_Queue_make α esz) n).base j = values j) ∧
      (Memory_Profiler_Queue_pushN alloc values
        (Memory_Profiler_Queue_make α esz) n).element_size = esz := by
  intro n
  induction n with
  | zero =>
    intro _
    refine ⟨rfl, le_rfl, Or.inl rfl, ?_, fun j hj => absurd hj (by omega), rfl⟩
    show (0 : Nat) ≤ _
    exact Nat.zero_le _
  | succ n ih =>
    intro h2
    obtain ⟨hcount, hle, hform, hbound, hvals, heszq⟩ := ih (by
      calc 2 * n * esz ≤ 2 * (n + 1) * esz :=
        Nat.mul_le_mul_right esz (by omega)
      _ ≤ SIZE_MAX := h2)
    set q := Memory_Profiler_Queue_pushN alloc values
      (Memory_Profiler_Queue_make α esz) n with hq
    have hstep : Memory_Profiler_Queue_pushN alloc values
        (Memory_Profiler_Queue_make α esz) (n + 1) =
      Memory_Profiler_Queue_push_value alloc q (values n) := rfl
    by_cases hcap : q.capacity < q.count + 1
    · have hrc2 : 2 * (q.count + 1) * q.element_size ≤ SIZE_MAX := by
        rw [heszq, hcount]
        exact h2
      obtain ⟨v, hres, hlev, hvbound⟩ := Queue_resize_success alloc q (q.count + 1)
        (by rw [heszq]; exact hesz) hrc2 (by rw [heszq]; exact h128) halloc hcap
      have hformv := Queue_resize_form alloc q (q.count + 1) hform
      rw [hres] at hformv
      have hfinal : Memory_Profiler_Queue_pushN alloc values
          (Memory_Profiler_Queue_make α esz) (n + 1) =
        { base := fun j => if j = q.count then values n else q.base j
          capacity := v
          count := q.count + 1
          element_size := q.element_size } := by
        rw [hstep]
        unfold Memory_Profiler_Queue_push_value
        rw [Queue_push_computed_grow alloc q v hcap hres]
        rfl
      dsimp only at hformv
      rw [hfinal]
      refine ⟨by dsimp only; omega, by dsimp only; omega, hformv, ?_, ?_, heszq⟩
      · show v ≤ _
        rw [hcount] at hvbound
        exact hvbound
      · intro j hj
        dsimp only
        by_cases hjn : j = q.count
        · rw [if_pos hjn, hjn, hcount]
        · rw [if_neg hjn]
          exact hvals j (by rw [hcount] at hjn; omega)
    · have hfinal : Memory_Profiler_Queue_pushN alloc values
          (Memory_Profiler_Queue_make α esz) (n + 1) =
        { base := fun j => if j = q.count then values n else q.base j
          capacity := q.capacity
          count := q.count + 1
          element_size := q.element_size } := by
        rw [hstep]
        unfold Memory_Profiler_Queue_push_value
        rw [Queue_push_computed_fit alloc q hcap]
        rfl
      rw [hfinal]
      refine ⟨by dsimp only; omega, by dsimp only; omega, hform, ?_, ?_, heszq⟩
      · show q.capacity ≤ _
        calc q.capacity ≤ max (2 * n) MEMORY_PROFILER_QUEUE_DEFAULT_COUNT := hbound
        _ ≤ max (2 * (n + 1)) MEMORY_PROFILER_QUEUE_DEFAULT_COUNT :=
          max_le_max (by omega) le_rfl
      · intro j hj
        dsimp only
        by_cases hjn : j = q.count
        · rw [if_pos hjn, hjn, hcount]
        · rw [if_neg hjn]
          exact hvals j (by rw [hcount] at hjn; omega)

theorem Queue_at_eq {α : Type} (queue : Memory_Profiler_Queue α) (index : Nat) :
    Memory_Profiler_Queue_at queue index = queue.base index := rfl

/-- C5.  Pushing 10,000 records onto a queue that starts at zero
capacity (allocations succeeding) yields count 10,000 and a capacity
that is at least 10,000 and of the form `128 · 2^k` — reached by
power-of-two doubling from the floor of 128 — with the first and last
pushed records retrievable unchanged via indexed access. -/
theorem claim_C5_growth_10000 (values : Nat → Event) :
    (Memory_Profiler_Queue_pushN (fun _ => true) values
      (Memory_Profiler_Queue_make Event Event_size) 10000).count = 10000 ∧
    10000 ≤ (Memory_Profiler_Queue_pushN (fun _ => true) values
      (Memory_Profiler_Queue_make Event Event_size) 10000).capacity ∧
    (∃ k, (Memory_Profiler_Queue_pushN (fun _ => true) values
      (Memory_Profiler_Queue_make Event Event_size) 10000).capacity =
        MEMORY_PROFILER_QUEUE_DEFAULT_COUNT * 2 ^ k) ∧
    Memory_Profiler_Queue_at (Memory_Profiler_Queue_pushN (fun _ => true) values
      (Memory_Profiler_Queue_make Event Event_size) 10000) 0 = values 0 ∧
    Memory_Profiler_Queue_at (Memory_Profiler_Queue_pushN (fun _ => true) values
      (Memory_Profiler_Queue_make Event Event_size) 10000) 9999 = values 9999 := by
  obtain ⟨hcount, hle, hform, _, hvals, _⟩ :=
    Queue_pushN_spec (fun _ => true) (fun _ => rfl) values Event_size
      (by norm_num [Event_size])
      (by norm_num [MEMORY_PROFILER_QUEUE_DEFAULT_COUNT, Event_size, SIZE_MAX])
      10000 (by norm_num [Event_size, SIZE_MAX])
  refine ⟨hcount, hle, ?_, ?_, ?_⟩
  · rcases hform with h0 | hk
    · omega
    · exact hk
  · rw [Queue_at_eq]
    exact hvals 0 (by norm_num)
  · rw [Queue_at_eq]
    exact hvals 9999 (by norm_num)

/-- When every allocation fails and growth is required, resize reports
failure and leaves the queue untouched. -/
theorem Queue_resize_allocfail {α : Type} (alloc : Nat → Bool)
    (halloc : ∀ m, alloc m = false) (q : Memory_Profiler_Queue α) (rc : Nat)
    (hcap : q.capacity < rc) :
    Memory_Profiler_Queue_resize alloc q rc = (-1, q) := by
  rcases Queue_resize_spec alloc q rc with ⟨hle, _⟩ | ⟨h1, h2⟩ | ⟨v, k, _, _, _, _, ha⟩
  · omega
  · have hpair : Memory_Profiler_Queue_resize alloc q rc =
      ((Memory_Profiler_Queue_resize alloc q rc).1,
        (Memory_Profiler_Queue_resize alloc q rc).2) := rfl
    rw [hpair, h1, h2]
  · rw [halloc] at ha
    exact absurd ha (by simp)

theorem Queue_push_allocfail {α : Type} (alloc : Nat → Bool)
    (halloc : ∀ m, alloc m = false) (q : Memory_Profiler_Queue α)
    (hcap : q.capacity < q.count + 1) :
    Memory_Profiler_Queue_push alloc q = (none, q) := by
  unfold Memory_Profiler_Queue_push
  rw [if_pos hcap, Queue_resize_allocfail alloc halloc q _ hcap]
  rfl

/-- C6.  If satisfying a growth request would overflow `size_t`
arithmetic (every adequate capacity makes the byte size exceed
`SIZE_MAX`), resize returns the explicit `-1` failure with the queue
unchanged; more generally any non-success leaves the queue unchanged,
and a successful resize never wraps: the granted capacity covers the
request and its byte size still fits in `SIZE_MAX`. -/
theorem claim_C6_overflow_rejected (alloc : Nat → Bool)
    (q : Memory_Profiler_Queue Event) (rc : Nat)
    (hesz : 0 < q.element_size) :
    (SIZE_MAX < rc * q.element_size → q.capacity < rc →
      Memory_Profiler_Queue_resize alloc q rc = (-1, q)) ∧
    ((Memory_Profiler_Queue_resize alloc q rc).1 ≠ 1 →
      (Memory_Profiler_Queue_resize alloc q rc).2 = q) ∧
    ((Memory_Profiler_Queue_resize alloc q rc).1 = 1 →
      rc ≤ (Memory_Profiler_Queue_resize alloc q rc).2.capacity ∧
      (Memory_Profiler_Queue_resize alloc q rc).2.capacity * q.element_size ≤
        SIZE_MAX) := by
  refine ⟨?_, Queue_resize_ne_one alloc q rc, ?_⟩
  · intro hover hcap
    rcases Queue_resize_spec alloc q rc with ⟨hle, _⟩ | ⟨h1, h2⟩ | ⟨v, k, _, hlev, _, hguard, _⟩
    · omega
    · have hpair : Memory_Profiler_Queue_resize alloc q rc =
        ((Memory_Profiler_Queue_resize alloc q rc).1,
          (Memory_Profiler_Queue_resize alloc q rc).2) := rfl
      rw [hpair, h1, h2]
    · exfalso
      have h1 : rc * q.element_size ≤ v * q.element_size :=
        Nat.mul_le_mul_right _ hlev
      have h2 : v * q.element_size ≤ SIZE_MAX :=
        (Nat.le_div_iff_mul_le hesz).mp hguard
      omega
  · intro hone
    rcases Queue_resize_spec alloc q rc with ⟨_, hr⟩ | ⟨h1, _⟩ | ⟨v, k, hr, hlev, _, hguard, _⟩
    · rw [hr] at hone
      simp at hone
    · rw [h1] at hone
      exact absurd hone (by decide)
    · rw [hr]
      exact ⟨hlev, (Nat.le_div_iff_mul_le hesz).mp hguard⟩

theorem claim_C6_overflow_rejected_witness :
    0 < (Memory_Profiler_Queue_make Event Event_size).element_size ∧
    SIZE_MAX < 2 ^ 62 * (Memory_Profiler_Queue_make Event Event_size).element_size ∧
    (Memory_Profiler_Queue_make Event Event_size).capacity < 2 ^ 62 ∧
    Memory_Profiler_Queue_resize (fun _ => true)
        (Memory_Profiler_Queue_make Event Event_size) (2 ^ 62) =
      (-1, Memory_Profiler_Queue_make Event Event_size) :=
  ⟨by norm_num [Memory_Profiler_Queue_make, Event_size],
    by norm_num [Memory_Profiler_Queue_make, Event_size, SIZE_MAX],
    by norm_num [Memory_Profiler_Queue_make],
    (claim_C6_overflow_rejected (fun _ => true)
        (Memory_Profiler_Queue_make Event Event_size) (2 ^ 62)
        (by norm_num [Memory_Profiler_Queue_make, Event_size])).1
      (by norm_num [Memory_Profiler_Queue_make, Event_size, SIZE_MAX])
      (by norm_num [Memory_Profiler_Queue_make])⟩

/-- C7.  When queue growth fails during enqueue, the call reports
failure and the event is simply dropped: the store (in particular the
available queue's count and contents) is unchanged, no reference is
stored through the write barrier, and no deferred drain is requested. -/
theorem claim_C7_enqueue_failure_drops_event (alloc : Nat → Bool)
    (events : Memory_Profiler_Events) (type : Event_Type)
    (capture klass object : Value)
    (hfail : (Memory_Profiler_Queue_push alloc
      (events.queues events.available)).1 = none) :
    (Memory_Profiler_Events_enqueue alloc events type capture klass object).ok = false ∧
    (Memory_Profiler_Events_enqueue alloc events type capture klass object).state = events ∧
    (Memory_Profiler_Events_enqueue alloc events type capture klass object).triggered = false ∧
    (Memory_Profiler_Events_enqueue alloc events type capture klass object).barriered = [] := by
  obtain ⟨hav, hpr, hfl, hother, hok, hfl2⟩ :=
    Events_enqueue_spec alloc events type capture klass object
  have hokfalse : (Memory_Profiler_Events_enqueue alloc events
      type capture klass object).ok = false := by
    unfold Memory_Profiler_Events_enqueue
    cases hpush : Memory_Profiler_Queue_push alloc (events.queues events.available) with
    | mk oi q1 =>
      cases oi with
      | some j =>
        rw [hpush] at hfail
        exact absurd hfail (by simp)
      | none => rfl
  obtain ⟨hst, htr⟩ := hfl2 hokfalse
  have hbar : (Memory_Profiler_Events_enqueue alloc events
      type capture klass object).barriered = [] := by
    unfold Memory_Profiler_Events_enqueue
    cases hpush : Memory_Profiler_Queue_push alloc (events.queues events.available) with
    | mk oi q1 =>
      cases oi with
      | some j =>
        rw [hpush] at hfail
        exact absurd hfail (by simp)
      | none => rfl
  exact ⟨hokfalse, hst, htr, hbar⟩

theorem claim_C7_enqueue_failure_drops_event_witness :
    (Memory_Profiler_Queue_push (fun _ => false)
      (Memory_Profiler_Events_new.queues Memory_Profiler_Events_new.available)).1 = none ∧
    ((Memory_Profiler_Events_enqueue (fun _ => false) Memory_Profiler_Events_new
        Event_Type.NEWOBJ (Value.obj 1) (Value.obj 2) (Value.obj 3)).ok = false ∧
     (Memory_Profiler_Events_enqueue (fun _ => false) Memory_Profiler_Events_new
        Event_Type.NEWOBJ (Value.obj 1) (Value.obj 2) (Value.obj 3)).state =
          Memory_Profiler_Events_new ∧
     (Memory_Profiler_Events_enqueue (fun _ => false) Memory_Profiler_Events_new
        Event_Type.NEWOBJ (Value.obj 1) (Value.obj 2) (Value.obj 3)).triggered = false ∧
     (Memory_Profiler_Events_enqueue (fun _ => false) Memory_Profiler_Events_new
        Event_Type.NEWOBJ (Value.obj 1) (Value.obj 2) (Value.obj 3)).barriered = []) := by
  have hfail : (Memory_Profiler_Queue_push (fun _ => false)
      (Memory_Profiler_Events_new.queues Memory_Profiler_Events_new.available)).1 = none := by
    rw [Queue_push_allocfail (fun _ => false) (fun _ => rfl)
      (Memory_Profiler_Events_new.queues Memory_Profiler_Events_new.available)
      (by norm_num [Memory_Profiler_Events_new, Memory_Profiler_Queue_make])]
  exact ⟨hfail, claim_C7_enqueue_failure_drops_event (fun _ => false)
    Memory_Profiler_Events_new Event_Type.NEWOBJ
    (Value.obj 1) (Value.obj 2) (Value.obj 3) hfail⟩

/-- One caller-visible operation on a queue (after `initialize`);
`atIndex` is the read-only indexed access, `push` and `resize` carry
their allocation environments. -/
inductive QueueOp where
  | push (alloc : Nat → Bool) : QueueOp
  | clear : QueueOp
  | resize (alloc : Nat → Bool) (required_capacity : Nat) : QueueOp
  | atIndex (index : Nat) : QueueOp
  | free : QueueOp

/-- Apply one operation to the queue state (`atIndex` reads only). -/
def Memory_Profiler_Queue_step {α : Type} [Inhabited α]
    (queue : Memory_Profiler_Queue α) : QueueOp → Memory_Profiler_Queue α
  | QueueOp.push alloc => (Memory_Profiler_Queue_push alloc queue).2
  | QueueOp.clear => Memory_Profiler_Queue_clear queue
  | QueueOp.resize alloc rc => (Memory_Profiler_Queue_resize alloc queue rc).2
  | QueueOp.atIndex _ => queue
  | QueueOp.free => Memory_Profiler_Queue_free queue

/-- Run a sequence of queue operations. -/
def Memory_Profiler_Queue_runOps {α : Type} [Inhabited α]
    (queue : Memory_Profiler_Queue α) : List QueueOp → Memory_Profiler_Queue α
  | [] => queue
  | op :: ops => Memory_Profiler_Queue_runOps
      (Memory_Profiler_Queue_step queue op) ops

/-- The queue data invariant: the logical count fits in the capacity,
and the capacity is `0` or `128 · 2^k`. -/
def QueueInv {α : Type} (queue : Memory_Profiler_Queue α) : Prop :=
  queue.count ≤ queue.capacity ∧
  (queue.capacity = 0 ∨
    ∃ k, queue.capacity = MEMORY_PROFILER_QUEUE_DEFAULT_COUNT * 2 ^ k)

theorem Queue_step_inv {α : Type} [Inhabited α]
    (queue : Memory_Profiler_Queue α) (op : QueueOp) (h : QueueInv queue) :
    QueueInv (Memory_Profiler_Queue_step queue op) := by
  obtain ⟨hcount, hform⟩ := h
  cases op with
  | push alloc =>
    show QueueInv (Memory_Profiler_Queue_push alloc queue).2
    cases hp : Memory_Profiler_Queue_push alloc queue with
    | mk oi q' =>
      cases oi with
      | some i =>
        obtain ⟨_, _, _, _, _, hc, hf⟩ := Queue_push_some alloc queue q' i hp
        exact ⟨hc, hf hform⟩
      | none =>
        rw [Queue_push_none alloc queue q' hp]
        exact ⟨hcount, hform⟩
  | clear => exact ⟨Nat.zero_le _, hform⟩
  | resize alloc rc =>
    show QueueInv (Memory_Profiler_Queue_resize alloc queue rc).2
    obtain ⟨hc, _, _⟩ := Queue_resize_preserves alloc queue rc
    exact ⟨by rw [hc]; exact le_trans hcount (Queue_resize_capacity_le alloc queue rc),
      Queue_resize_form alloc queue rc hform⟩
  | atIndex i => exact ⟨hcount, hform⟩
  | free => exact ⟨le_rfl, Or.inl rfl⟩

theorem Queue_step_capacity_mono {α : Type} [Inhabited α]
    (queue : Memory_Profiler_Queue α) (op : QueueOp) (h : op ≠ QueueOp.free) :
    queue.capacity ≤ (Memory_Profiler_Queue_step queue op).capacity := by
  cases op with
  | push alloc =>
    show queue.capacity ≤ (Memory_Profiler_Queue_push alloc queue).2.capacity
    cases hp : Memory_Profiler_Queue_push alloc queue with
    | mk oi q' =>
      cases oi with
      | some i =>
        obtain ⟨_, _, _, _, hcap, _, _⟩ := Queue_push_some alloc queue q' i hp
        exact hcap
      | none =>
        rw [Queue_push_none alloc queue q' hp]
  | clear => exact le_rfl
  | resize alloc rc => exact Queue_resize_capacity_le alloc queue rc
  | atIndex i => exact le_rfl
  | free => exact absurd rfl h

theorem Queue_runOps_inv {α : Type} [Inhabited α] :
    ∀ (ops : List QueueOp) (queue : Memory_Profiler_Queue α),
      QueueInv queue → QueueInv (Memory_Profiler_Queue_runOps queue ops) := by
  intro ops
  induction ops with
  | nil => exact fun queue h => h
  | cons op ops ih =>
    intro queue h
    exact ih (Memory_Profiler_Queue_step queue op) (Queue_step_inv queue op h)

/-- On an empty queue, a resize to 1 grows straight to the floor 128. -/
theorem Queue_resize_empty_one :
    Memory_Profiler_Queue_resize (fun _ => true)
      (Memory_Profiler_Queue_make Event Event_size) 1 =
    (1, { Memory_Profiler_Queue_make Event Event_size with
      capacity := MEMORY_PROFILER_QUEUE_DEFAULT_COUNT }) := by
  have hloop : Memory_Profiler_Queue_resize_loop Event_size
      MEMORY_PROFILER_QUEUE_DEFAULT_COUNT 1 =
      some MEMORY_PROFILER_QUEUE_DEFAULT_COUNT := by
    unfold Memory_Profiler_Queue_resize_loop
    rw [dif_neg (by norm_num [MEMORY_PROFILER_QUEUE_DEFAULT_COUNT])]
  unfold Memory_Profiler_Queue_resize Memory_Profiler_Queue_make
  rw [if_neg (by norm_num)]
  dsimp only
  rw [if_pos rfl, hloop]
  dsimp only
  have hg : ¬ (SIZE_MAX / Event_size < MEMORY_PROFILER_QUEUE_DEFAULT_COUNT) := by
    norm_num [SIZE_MAX, Event_size, MEMORY_PROFILER_QUEUE_DEFAULT_COUNT]
  rw [if_neg hg, if_pos rfl]

/-- The first push on an empty queue succeeds, reserving slot 0 and
growing the capacity to the floor 128. -/
theorem Queue_push_empty :
    Memory_Profiler_Queue_push (fun _ => true)
      (Memory_Profiler_Queue_make Event Event_size) =
    (some 0, { Memory_Profiler_Queue_make Event Event_size with
      capacity := MEMORY_PROFILER_QUEUE_DEFAULT_COUNT, count := 1 }) :=
  Queue_push_computed_grow (fun _ => true)
    (Memory_Profiler_Queue_make Event Event_size)
    MEMORY_PROFILER_QUEUE_DEFAULT_COUNT
    (by norm_num [Memory_Profiler_Queue_make]) Queue_resize_empty_one

/-- C8 (counterexample to the claim as stated): `free` is among the
listed operations yet it resets the capacity to 0 — after a single
successful push the capacity is 128, and applying `free` drops it to
0, so capacity does decrease across an operation sequence containing
`free`. -/
theorem claim_C8_counterexample_free_shrinks_capacity :
    (Memory_Profiler_Queue_runOps
      (Memory_Profiler_Queue_make Event Event_size)
      [QueueOp.push (fun _ => true)]).capacity = 128 ∧
    (Memory_Profiler_Queue_runOps
      (Memory_Profiler_Queue_make Event Event_size)
      [QueueOp.push (fun _ => true), QueueOp.free]).capacity = 0 ∧
    (Memory_Profiler_Queue_runOps
      (Memory_Profiler_Queue_make Event Event_size)
      [QueueOp.push (fun _ => true), QueueOp.free]).capacity <
      (Memory_Profiler_Queue_runOps
        (Memory_Profiler_Queue_make Event Event_size)
        [QueueOp.push (fun _ => true)]).capacity := by
  have hpush := Queue_push_empty
  have hrun1 : Memory_Profiler_Queue_runOps
      (Memory_Profiler_Queue_make Event Event_size)
      [QueueOp.push (fun _ => true)] =
    { Memory_Profiler_Queue_make Event Event_size with
      capacity := MEMORY_PROFILER_QUEUE_DEFAULT_COUNT, count := 1 } := by
    show (Memory_Profiler_Queue_push (fun _ => true)
      (Memory_Profiler_Queue_make Event Event_size)).2 = _
    rw [hpush]
  have hrun2 : Memory_Profiler_Queue_runOps
      (Memory_Profiler_Queue_make Event Event_size)
      [QueueOp.push (fun _ => true), QueueOp.free] =
    Memory_Profiler_Queue_free
      { Memory_Profiler_Queue_make Event Event_size with
        capacity := MEMORY_PROFILER_QUEUE_DEFAULT_COUNT, count := 1 } := by
    show Memory_Profiler_Queue_runOps ((Memory_Profiler_Queue_push (fun _ => true)
      (Memory_Profiler_Queue_make Event Event_size)).2) [QueueOp.free] = _
    rw [hpush]
    rfl
  rw [hrun1, hrun2]
  refine ⟨rfl, rfl, ?_⟩
  show (0 : Nat) < MEMORY_PROFILER_QUEUE_DEFAULT_COUNT
  norm_num [MEMORY_PROFILER_QUEUE_DEFAULT_COUNT]

/-- C8 (amended).  For every sequence of queue operations starting
from `initialize`: `count ≤ capacity` holds at all times and the
capacity is always `0` or `128 · 2^k` (it changes only by doubling
from the floor of 128); every operation other than `free` never
decreases the capacity; `clear` resets the logical count to 0 without
releasing or shrinking the backing storage; `free` releases the
storage, resetting capacity and count to 0. -/
theorem claim_C8_amended_queue_invariants (ops : List QueueOp)
    (op : QueueOp) (q : Memory_Profiler_Queue Event) :
    ((Memory_Profiler_Queue_runOps
        (Memory_Profiler_Queue_make Event Event_size) ops).count ≤
      (Memory_Profiler_Queue_runOps
        (Memory_Profiler_Queue_make Event Event_size) ops).capacity ∧
     ((Memory_Profiler_Queue_runOps
         (Memory_Profiler_Queue_make Event Event_size) ops).capacity = 0 ∨
      ∃ k, (Memory_Profiler_Queue_runOps
        (Memory_Profiler_Queue_make Event Event_size) ops).capacity =
          MEMORY_PROFILER_QUEUE_DEFAULT_COUNT * 2 ^ k)) ∧
    (QueueInv q → QueueInv (Memory_Profiler_Queue_step q op)) ∧
    (op ≠ QueueOp.free → q.capacity ≤ (Memory_Profiler_Queue_step q op).capacity) ∧
    ((Memory_Profiler_Queue_step q QueueOp.clear).count = 0 ∧
     (Memory_Profiler_Queue_step q QueueOp.clear).capacity = q.capacity ∧
     (Memory_Profiler_Queue_step q QueueOp.clear).base = q.base) ∧
    ((Memory_Profiler_Queue_step q QueueOp.free).capacity = 0 ∧
     (Memory_Profiler_Queue_step q QueueOp.free).count = 0) :=
  ⟨Queue_runOps_inv ops (Memory_Profiler_Queue_make Event Event_size)
      ⟨le_rfl, Or.inl rfl⟩,
    Queue_step_inv q op,
    Queue_step_capacity_mono q op,
    ⟨rfl, rfl, rfl⟩,
    ⟨rfl, rfl⟩⟩

theorem claim_C8_amended_queue_invariants_witness :
    QueueInv (Memory_Profiler_Queue_make Event Event_size) ∧
    QueueOp.clear ≠ QueueOp.free ∧
    (QueueInv (Memory_Profiler_Queue_step
      (Memory_Profiler_Queue_make Event Event_size) QueueOp.clear) ∧
     (Memory_Profiler_Queue_make Event Event_size).capacity ≤
       (Memory_Profiler_Queue_step
         (Memory_Profiler_Queue_make Event Event_size) QueueOp.clear).capacity) :=
  ⟨⟨le_rfl, Or.inl rfl⟩, fun h => QueueOp.noConfusion h,
    (claim_C8_amended_queue_invariants [] QueueOp.clear
      (Memory_Profiler_Queue_make Event Event_size)).2.1
        ⟨le_rfl, Or.inl rfl⟩,
    (claim_C8_amended_queue_invariants [] QueueOp.clear
      (Memory_Profiler_Queue_make Event Event_size)).2.2.1
        (fun h => QueueOp.noConfusion h)⟩

/-- Test fixture: the i-th sample record; record 1 is a Freed record,
the others are Allocated records. -/
def exampleRecord (n : Nat) : Event :=
  ⟨if n = 1 then Event_Type.FREEOBJ else Event_Type.NEWOBJ,
    Value.obj n, Value.obj (n + 10), Value.obj (n + 20)⟩

/-- Test fixture: a store in steady state whose available queue holds
three pending records and whose processing queue is empty. -/
def exampleStore : Memory_Profiler_Events :=
  { queues := fun j => if j = false then
      { base := exampleRecord
        capacity := MEMORY_PROFILER_QUEUE_DEFAULT_COUNT
        count := 3
        element_size := Event_size }
    else Memory_Profiler_Queue_make Event Event_size
    available := false
    processing := true
    processing_flag := false }

theorem claim_C3_slots_cleared_before_count_zeroed_witness :
    exampleStore.processing_flag = false ∧
    exampleStore.available ≠ exampleStore.processing ∧
    (((Memory_Profiler_Events_process_loop (fun _ => false)
        (exampleStore.queues exampleStore.available) 0).1.count =
          (exampleStore.queues exampleStore.available).count ∧
      (∀ j, j < (exampleStore.queues exampleStore.available).count →
        (Memory_Profiler_Events_process_loop (fun _ => false)
          (exampleStore.queues exampleStore.available) 0).1.base j =
            ⟨Event_Type.NONE, Value.Qnil, Value.Qnil, Value.Qnil⟩)) ∧
     (((Memory_Profiler_Events_process_queue (fun _ => false) exampleStore).1.queues
        (Memory_Profiler_Events_process_queue (fun _ => false) exampleStore).1.processing).count = 0 ∧
      Memory_Profiler_Events_mark_queue
        ((Memory_Profiler_Events_process_queue (fun _ => false) exampleStore).1.queues
          (Memory_Profiler_Events_process_queue (fun _ => false) exampleStore).1.processing)
        true = [] ∧
      (∀ j, j < (exampleStore.queues exampleStore.available).count →
        ((Memory_Profiler_Events_process_queue (fun _ => false) exampleStore).1.queues
          (Memory_Profiler_Events_process_queue (fun _ => false) exampleStore).1.processing).base j =
            ⟨Event_Type.NONE, Value.Qnil, Value.Qnil, Value.Qnil⟩))) :=
  ⟨rfl, by decide,
    claim_C3_slots_cleared_before_count_zeroed (fun _ => false) exampleStore rfl (by decide)⟩

theorem claim_C4_handler_fault_containment_witness :
    exampleStore.processing_flag = false ∧
    exampleStore.available ≠ exampleStore.processing ∧
    ((Memory_Profiler_Events_process_queue (fun i => i == 1) exampleStore).2.map Prod.fst =
      Memory_Profiler_Queue_records (exampleStore.queues exampleStore.available) ∧
    (Memory_Profiler_Events_process_queue (fun i => i == 1) exampleStore).2.map Prod.fst =
      (Memory_Profiler_Events_process_queue (fun _ => false) exampleStore).2.map Prod.fst ∧
    (Memory_Profiler_Events_process_queue (fun i => i == 1) exampleStore).1 =
      (Memory_Profiler_Events_process_queue (fun _ => false) exampleStore).1 ∧
    Memory_Profiler_Events_process_all (fun i => i == 1) exampleStore =
      Except.ok (Memory_Profiler_Events_process_queue (fun i => i == 1) exampleStore)) :=
  ⟨rfl, by decide,
    claim_C4_handler_fault_containment (fun i => i == 1) exampleStore rfl (by decide)⟩

theorem claim_C9_mark_and_compact_walk_coverage_witness :
    0 < (exampleStore.queues exampleStore.available).count ∧
    exampleStore.available ≠ exampleStore.processing ∧
    (((exampleStore.queues exampleStore.available).base 0).capture ∈
      Memory_Profiler_Events_mark exampleStore ∧
     ((exampleStore.queues exampleStore.available).base 0).klass ∈
      Memory_Profiler_Events_mark exampleStore ∧
     ((exampleStore.queues exampleStore.available).base 0).object ∈
      Memory_Profiler_Events_mark exampleStore) ∧
    Memory_Profiler_Events_mark_queue
        (Memory_Profiler_Events_compact_queue (fun _ => Value.obj 7)
          (exampleStore.queues exampleStore.available) false) false =
      (Memory_Profiler_Events_mark_queue
        (exampleStore.queues exampleStore.available) false).map (fun _ => Value.obj 7) ∧
    Memory_Profiler_Events_mark
        (Memory_Profiler_Events_compact (fun _ => Value.obj 7) exampleStore) =
      (Memory_Profiler_Events_mark exampleStore).map (fun _ => Value.obj 7) :=
  ⟨by decide, by decide,
    ⟨((claim_C9_mark_and_compact_walk_coverage exampleStore (fun _ => Value.obj 7)).1
        0 (by decide)).1,
      ((claim_C9_mark_and_compact_walk_coverage exampleStore (fun _ => Value.obj 7)).1
        0 (by decide)).2.1,
      ((claim_C9_mark_and_compact_walk_coverage exampleStore (fun _ => Value.obj 7)).1
        0 (by decide)).2.2 (by decide)⟩,
    (claim_C9_mark_and_compact_walk_coverage exampleStore (fun _ => Value.obj 7)).2.2.1
      (exampleStore.queues exampleStore.available) false,
    (claim_C9_mark_and_compact_walk_coverage exampleStore (fun _ => Value.obj 7)).2.2.2
      (by decide)⟩

theorem claim_C10_freeobj_object_not_visited_witness :
    1 < (exampleStore.queues false).count ∧
    ((exampleStore.queues false).base 1).type = Event_Type.FREEOBJ ∧
    (Memory_Profiler_Events_mark_queue
        (Memory_Profiler_Queue_set (exampleStore.queues false) 1
          { (exampleStore.queues false).base 1 with object := Value.Qnil }) false =
      Memory_Profiler_Events_mark_queue (exampleStore.queues false) false ∧
    (Memory_Profiler_Events_compact_queue (fun _ => Value.obj 7)
        (exampleStore.queues false) false).base 1 =
      { (exampleStore.queues false).base 1 with
          capture := (fun _ => Value.obj 7) (((exampleStore.queues false).base 1).capture)
          klass := (fun _ => Value.obj 7) (((exampleStore.queues false).base 1).klass) }) ∧
    ((Memory_Profiler_Events_enqueue (fun _ => true) Memory_Profiler_Events_new
        Event_Type.FREEOBJ (Value.obj 1) (Value.obj 2) (Value.obj 3)).ok = true ∧
     ((Memory_Profiler_Events_enqueue (fun _ => true) Memory_Profiler_Events_new
        Event_Type.FREEOBJ (Value.obj 1) (Value.obj 2) (Value.obj 3)).state.queues
          Memory_Profiler_Events_new.available).base
        ((Memory_Profiler_Events_new.queues Memory_Profiler_Events_new.available).count) =
        ⟨Event_Type.FREEOBJ, Value.obj 1, Value.obj 2, Value.obj 3⟩ ∧
     Value.obj 3 ∈ (Memory_Profiler_Events_enqueue (fun _ => true) Memory_Profiler_Events_new
        Event_Type.FREEOBJ (Value.obj 1) (Value.obj 2) (Value.obj 3)).barriered) := by
  have hpushnew : Memory_Profiler_Queue_push (fun _ => true)
      (Memory_Profiler_Events_new.queues Memory_Profiler_Events_new.available) =
    (some 0, { Memory_Profiler_Queue_make Event Event_size with
      capacity := MEMORY_PROFILER_QUEUE_DEFAULT_COUNT, count := 1 }) := Queue_push_empty
  have hok : (Memory_Profiler_Events_enqueue (fun _ => true) Memory_Profiler_Events_new
      Event_Type.FREEOBJ (Value.obj 1) (Value.obj 2) (Value.obj 3)).ok = true := by
    unfold Memory_Profiler_Events_enqueue
    rw [hpushnew]
  exact ⟨by decide, by decide,
    (claim_C10_freeobj_object_not_visited (fun _ => true) Memory_Profiler_Events_new
      (Value.obj 1) (Value.obj 2) (Value.obj 3) (fun _ => Value.obj 7)
      (exampleStore.queues false) false 1 Value.Qnil).2.1 (by decide) (by decide),
    hok,
    (claim_C10_freeobj_object_not_visited (fun _ => true) Memory_Profiler_Events_new
      (Value.obj 1) (Value.obj 2) (Value.obj 3) (fun _ => Value.obj 7)
      (exampleStore.queues false) false 1 Value.Qnil).1 hok⟩
